import Mathlib

/-!
Verification of the session core of the "life maze" exploration game:
maze generation (`moralmaze/core/maze.py`), the session state aggregate and
the controller operations (`moralmaze/server/controller.py`,
`moralmaze/core/state.py`, `moralmaze/core/models.py`, `moralmaze/core/rules.py`).

Modelling conventions:
* Python machine integers are modelled as `Int` (they are unbounded in Python).
* Wall-clock timestamps (`time.time()` floats) are modelled as rationals `ℚ`;
  `int(a // b)` on nonnegative quantities is the floor of the quotient.
* The global PRNG (`random`) is modelled as a stream of naturals together
  with a cursor; `random.seed(seed)` produces a stream that is a pure
  function of the seed (this models CPython's Mersenne Twister, which is
  deterministically reseeded by `random.seed`).  Theorems that must hold
  for every PRNG outcome quantify over an arbitrary stream.
* Mutation of Python objects becomes functional record update; the 2-D
  cell array of the maze becomes a function `Int → Int → Cell` updated
  pointwise, and raising `ValueError` becomes returning `Except.error`.
-/

namespace MoralMaze

/-- Model of the global `random` PRNG: an abstract stream of naturals and a
cursor pointing at the next value to be consumed. -/
structure Rng where
  stream : Nat → Nat
  counter : Nat

/-- Draw the next raw value from the stream. -/
def Rng.next (r : Rng) : Nat × Rng :=
  (r.stream r.counter, ⟨r.stream, r.counter + 1⟩)

/-- Model of `random._randbelow(n)` (used by `random.choice` and
`random.shuffle`): an arbitrary stream value reduced modulo `n`. -/
def Rng.randBelow (r : Rng) (n : Nat) : Nat × Rng :=
  let (v, r') := r.next
  (v % n, r')

/-- Model of the Bernoulli test `random.random() < 0.3` in the decision-node
pass: a biased coin drawn from the stream. -/
def Rng.chance30 (r : Rng) : Bool × Rng :=
  let (v, r') := r.next
  (decide (v % 10 < 3), r')

/-- Model of `random.seed(seed)`: the subsequent stream is a pure function of
the seed (abstract stand-in for CPython's seeded Mersenne Twister). -/
def pythonSeed (seed : Nat) : Rng :=
  ⟨fun n => (1103515245 * (seed + n) + 12345) % 2147483648, 0⟩

/-- The four wall directions (the keys of the `walls` dict in `maze.py`). -/
inductive Direction : Type
  | north
  | south
  | east
  | west
deriving DecidableEq, Repr

/-- `DIR_TO_DELTA` / the `directions` dict of `maze.py`. -/
def dirDelta : Direction → Int × Int
  | .north => (0, -1)
  | .south => (0, 1)
  | .east => (1, 0)
  | .west => (-1, 0)

/-- `OPPOSITE_DIRECTION` / the `opposite` dict of `generate_maze`. -/
def opposite : Direction → Direction
  | .north => .south
  | .south => .north
  | .east => .west
  | .west => .east

/-- Iteration order of the `directions` dict (Python dicts iterate in
insertion order: north, south, east, west). -/
def directionOrder : List Direction :=
  [Direction.north, Direction.south, Direction.east, Direction.west]

/-- `Cell` of `maze.py`: coordinates, four wall flags (`true` = wall
present), a generation-time `visited` flag and the `decision_node` flag. -/
structure Cell where
  x : Int
  y : Int
  walls : Direction → Bool
  visited : Bool
  decision_node : Bool

/-- `Cell(x, y)` with the default field values. -/
def Cell.init (x y : Int) : Cell :=
  ⟨x, y, fun _ => true, false, false⟩

/-- `Cell.open_directions`: the directions whose wall has been carved. -/
def Cell.open_directions (c : Cell) : List Direction :=
  directionOrder.filter (fun d => !c.walls d)

/-- `Cell.opening_count`. -/
def Cell.opening_count (c : Cell) : Nat :=
  c.open_directions.length

/-- `Maze` of `maze.py`; the 2-D `grid` array is modelled as a total
function on coordinates (out-of-bounds cells are never accessed by the
source, which guards every access with `get_cell`). -/
structure Maze where
  width : Nat
  height : Nat
  seed : Nat
  grid : Int → Int → Cell
  start_pos : Int × Int

/-- The bounds test `0 <= x < self.width and 0 <= y < self.height`. -/
def Maze.inBounds (m : Maze) (x y : Int) : Prop :=
  0 ≤ x ∧ x < (m.width : Int) ∧ 0 ≤ y ∧ y < (m.height : Int)

instance (m : Maze) (x y : Int) : Decidable (m.inBounds x y) := by
  unfold Maze.inBounds
  infer_instance

/-- `Maze.get_cell`. -/
def Maze.get_cell (m : Maze) (x y : Int) : Option Cell :=
  if m.inBounds x y then some (m.grid x y) else none

/-- `Maze.can_move`: the wall in the given direction is open. -/
def Maze.can_move (m : Maze) (c : Cell) (d : Direction) : Bool :=
  !c.walls d

/-- Pointwise update of one grid entry (mutation of one `Cell` object). -/
def Maze.updateCell (m : Maze) (x y : Int) (f : Cell → Cell) : Maze :=
  { m with grid := fun a b => if a = x ∧ b = y then f (m.grid a b) else m.grid a b }

/-- `cell.walls[d] = False`. -/
def Maze.openWall (m : Maze) (x y : Int) (d : Direction) : Maze :=
  m.updateCell x y (fun c => { c with walls := fun e => if e = d then false else c.walls e })

/-- `cell.visited = True`. -/
def Maze.markVisited (m : Maze) (x y : Int) : Maze :=
  m.updateCell x y (fun c => { c with visited := true })

/-- `cell.decision_node = True`. -/
def Maze.markDecision (m : Maze) (x y : Int) : Maze :=
  m.updateCell x y (fun c => { c with decision_node := true })

/-- The unvisited in-bounds neighbours of `(x, y)`, as the list of the
directions that lead to them, enumerated in the order of
`maze.get_neighbors` (the direction determines the neighbour cell, so this
carries the same data as the `(neighbor, direction)` pairs of the source). -/
def Maze.unvisitedNeighborDirs (m : Maze) (x y : Int) : List Direction :=
  directionOrder.filter (fun d =>
    match m.get_cell (x + (dirDelta d).1) (y + (dirDelta d).2) with
    | some nb => !nb.visited
    | none => false)

/-- Row-major enumeration of all cell coordinates (`for y in range(height):
for x in range(width)`). -/
def coordsList (w h : Nat) : List (Int × Int) :=
  (List.range h).flatMap (fun y => (List.range w).map (fun x => (Int.ofNat x, Int.ofNat y)))

/-- The finite set of in-bounds coordinates. -/
def Maze.cellFinset (m : Maze) : Finset (Int × Int) :=
  (coordsList m.width m.height).toFinset

/-- Number of visited in-bounds cells. -/
def Maze.visitedCount (m : Maze) : Nat :=
  (m.cellFinset.filter (fun p => (m.grid p.1 p.2).visited = true)).card

/-- Number of carved internal walls, counting each wall once through its
east/south side. -/
def Maze.removedWallCount (m : Maze) : Nat :=
  ((m.cellFinset ×ˢ ({Direction.east, Direction.south} : Finset Direction)).filter
    (fun pd => (m.grid pd.1.1 pd.1.2).walls pd.2 = false)).card

/-- One cell is joined to an adjacent one when the wall on the connecting
side of the first cell is open. -/
def Maze.openAdj (m : Maze) (p q : Int × Int) : Prop :=
  ∃ d : Direction,
    q.1 = p.1 + (dirDelta d).1 ∧ q.2 = p.2 + (dirDelta d).2 ∧
    (m.grid p.1 p.2).walls d = false

/-- Reachability through open walls. -/
def Maze.Reach (m : Maze) (p q : Int × Int) : Prop :=
  Relation.ReflTransGen m.openAdj p q

/-! ### Basic facts about the grid representation -/

lemma Maze.width_updateCell (m : Maze) (x y : Int) (f : Cell → Cell) :
    (m.updateCell x y f).width = m.width := rfl

lemma Maze.height_updateCell (m : Maze) (x y : Int) (f : Cell → Cell) :
    (m.updateCell x y f).height = m.height := rfl

lemma Maze.grid_updateCell (m : Maze) (x y : Int) (f : Cell → Cell) (a b : Int) :
    (m.updateCell x y f).grid a b =
      if a = x ∧ b = y then f (m.grid a b) else m.grid a b := rfl

lemma Maze.inBounds_updateCell (m : Maze) (x y : Int) (f : Cell → Cell) (a b : Int) :
    (m.updateCell x y f).inBounds a b ↔ m.inBounds a b := Iff.rfl

lemma Maze.visited_openWall (m : Maze) (x y : Int) (d : Direction) (a b : Int) :
    ((m.openWall x y d).grid a b).visited = (m.grid a b).visited := by
  simp only [Maze.openWall, Maze.grid_updateCell]
  by_cases h : a = x ∧ b = y <;> simp [h]

lemma Maze.decision_openWall (m : Maze) (x y : Int) (d : Direction) (a b : Int) :
    ((m.openWall x y d).grid a b).decision_node = (m.grid a b).decision_node := by
  simp only [Maze.openWall, Maze.grid_updateCell]
  by_cases h : a = x ∧ b = y <;> simp [h]

lemma Maze.walls_markVisited (m : Maze) (x y : Int) (a b : Int) :
    ((m.markVisited x y).grid a b).walls = (m.grid a b).walls := by
  simp only [Maze.markVisited, Maze.grid_updateCell]
  by_cases h : a = x ∧ b = y <;> simp [h]

lemma Maze.decision_markVisited (m : Maze) (x y : Int) (a b : Int) :
    ((m.markVisited x y).grid a b).decision_node = (m.grid a b).decision_node := by
  simp only [Maze.markVisited, Maze.grid_updateCell]
  by_cases h : a = x ∧ b = y <;> simp [h]

lemma Maze.visited_markVisited (m : Maze) (x y : Int) (a b : Int) :
    ((m.markVisited x y).grid a b).visited =
      if a = x ∧ b = y then true else (m.grid a b).visited := by
  simp only [Maze.markVisited, Maze.grid_updateCell]
  by_cases h : a = x ∧ b = y <;> simp [h]

lemma Maze.walls_markDecision (m : Maze) (x y : Int) (a b : Int) :
    ((m.markDecision x y).grid a b).walls = (m.grid a b).walls := by
  simp only [Maze.markDecision, Maze.grid_updateCell]
  by_cases h : a = x ∧ b = y <;> simp [h]

lemma Maze.visited_markDecision (m : Maze) (x y : Int) (a b : Int) :
    ((m.markDecision x y).grid a b).visited = (m.grid a b).visited := by
  simp only [Maze.markDecision, Maze.grid_updateCell]
  by_cases h : a = x ∧ b = y <;> simp [h]

lemma Maze.decision_markDecision (m : Maze) (x y : Int) (a b : Int) :
    ((m.markDecision x y).grid a b).decision_node =
      if a = x ∧ b = y then true else (m.grid a b).decision_node := by
  simp only [Maze.markDecision, Maze.grid_updateCell]
  by_cases h : a = x ∧ b = y <;> simp [h]

lemma Maze.walls_openWall (m : Maze) (x y : Int) (d : Direction) (a b : Int) (e : Direction) :
    ((m.openWall x y d).grid a b).walls e =
      if (a = x ∧ b = y) ∧ e = d then false else (m.grid a b).walls e := by
  simp only [Maze.openWall, Maze.grid_updateCell]
  by_cases h : a = x ∧ b = y
  · by_cases he : e = d <;> simp [h, he]
  · simp [h]

lemma mem_coordsList {w h : Nat} {p : Int × Int} :
    p ∈ coordsList w h ↔ 0 ≤ p.1 ∧ p.1 < (w : Int) ∧ 0 ≤ p.2 ∧ p.2 < (h : Int) := by
  obtain ⟨a, b⟩ := p
  constructor
  · intro hp
    rw [coordsList, List.mem_flatMap] at hp
    obtain ⟨y, hy, hmem⟩ := hp
    rw [List.mem_map] at hmem
    obtain ⟨x, hx, heq⟩ := hmem
    rw [List.mem_range] at hy hx
    obtain ⟨rfl, rfl⟩ := Prod.mk.injEq .. ▸ heq
    refine ⟨Int.ofNat_nonneg x, ?_, Int.ofNat_nonneg y, ?_⟩
    · exact Int.ofNat_lt.mpr hx
    · exact Int.ofNat_lt.mpr hy
  · rintro ⟨h1, h2, h3, h4⟩
    rw [coordsList, List.mem_flatMap]
    refine ⟨b.toNat, ?_, ?_⟩
    · rw [List.mem_range]; omega
    · rw [List.mem_map]
      refine ⟨a.toNat, by rw [List.mem_range]; omega, ?_⟩
      rw [Prod.mk.injEq]
      constructor <;> simp <;> omega

lemma coordsList_nodup (w h : Nat) : (coordsList w h).Nodup := by
  rw [coordsList, List.nodup_flatMap]
  constructor
  · intro y _
    have hinj : Function.Injective (fun x : Nat => (Int.ofNat x, Int.ofNat y)) := by
      intro a b hab
      have h1 := congrArg Prod.fst hab
      simpa using h1
    exact List.Nodup.map hinj (List.nodup_range w)
  · refine (List.nodup_range h).imp ?_
    intro a b hab
    intro p hpa hpb
    rw [List.mem_map] at hpa hpb
    obtain ⟨x1, -, rfl⟩ := hpa
    obtain ⟨x2, -, h2⟩ := hpb
    apply hab
    have h3 := congrArg Prod.snd h2
    simpa using h3.symm

lemma sum_map_const_nat {α : Type} (l : List α) (c : Nat) :
    (l.map (fun _ => c)).sum = l.length * c := by
  induction l with
  | nil => simp
  | cons a t ih => simp [ih, Nat.succ_mul, Nat.add_comm]

lemma coordsList_length (w h : Nat) : (coordsList w h).length = h * w := by
  rw [coordsList, List.length_flatMap]
  have he : List.map (fun y => (List.map (fun x : Nat => (Int.ofNat x, Int.ofNat y))
      (List.range w)).length) (List.range h) = List.map (fun _ => w) (List.range h) := by
    apply List.map_congr_left
    intro y _
    rw [List.length_map, List.length_range]
  simp only [Function.comp_def]
  rw [he, sum_map_const_nat, List.length_range]

lemma mem_cellFinset {m : Maze} {p : Int × Int} :
    p ∈ m.cellFinset ↔ m.inBounds p.1 p.2 := by
  simp [Maze.cellFinset, List.mem_toFinset, mem_coordsList, Maze.inBounds]

lemma Maze.card_cellFinset (m : Maze) : m.cellFinset.card = m.width * m.height := by
  rw [Maze.cellFinset, List.toFinset_card_of_nodup (coordsList_nodup _ _),
    coordsList_length, Nat.mul_comm]

lemma Maze.cellFinset_updateCell (m : Maze) (x y : Int) (f : Cell → Cell) :
    (m.updateCell x y f).cellFinset = m.cellFinset := rfl

/-- Flipping the predicate from false to true at one point of a finite set
increases the count of satisfying points by one. -/
lemma card_filter_flip {α : Type} [DecidableEq α] (S : Finset α) (p q : α → Prop)
    [DecidablePred p] [DecidablePred q] (a : α) (ha : a ∈ S) (hpa : ¬p a) (hqa : q a)
    (hagree : ∀ x ∈ S, x ≠ a → (q x ↔ p x)) :
    (S.filter q).card = (S.filter p).card + 1 := by
  have hins : S.filter q = insert a (S.filter p) := by
    ext x
    by_cases hx : x = a
    · subst hx
      simp [ha, hqa]
    · simp only [Finset.mem_filter, Finset.mem_insert, hx, false_or]
      constructor
      · rintro ⟨hxS, hqx⟩
        exact ⟨hxS, (hagree x hxS hx).1 hqx⟩
      · rintro ⟨hxS, hpx⟩
        exact ⟨hxS, (hagree x hxS hx).2 hpx⟩
  rw [hins, Finset.card_insert_of_not_mem]
  simp [hpa]

lemma Maze.visitedCount_updateCell_of_visited_eq (m : Maze) (x y : Int) (f : Cell → Cell)
    (hf : ∀ c, (f c).visited = c.visited) :
    (m.updateCell x y f).visitedCount = m.visitedCount := by
  unfold Maze.visitedCount
  rw [Maze.cellFinset_updateCell]
  congr 1
  apply Finset.filter_congr
  intro p _
  rw [Maze.grid_updateCell]
  by_cases h : p.1 = x ∧ p.2 = y <;> simp [h, hf]

lemma Maze.visitedCount_openWall (m : Maze) (x y : Int) (d : Direction) :
    (m.openWall x y d).visitedCount = m.visitedCount :=
  m.visitedCount_updateCell_of_visited_eq x y _ (fun _ => rfl)

lemma ne_pair_of_not_and {p : Int × Int} {x y : Int} (h : ¬(p.1 = x ∧ p.2 = y)) :
    p ≠ (x, y) := by
  intro hp
  subst hp
  exact h ⟨rfl, rfl⟩

lemma Maze.visitedCount_markVisited (m : Maze) (x y : Int)
    (hb : m.inBounds x y) (hv : (m.grid x y).visited = false) :
    (m.markVisited x y).visitedCount = m.visitedCount + 1 := by
  unfold Maze.visitedCount
  have hcf : (m.markVisited x y).cellFinset = m.cellFinset := rfl
  rw [hcf]
  apply card_filter_flip _ _ _ (x, y)
  · exact mem_cellFinset.2 hb
  · simp [hv]
  · rw [Maze.visited_markVisited]
    simp
  · intro p hp hne
    rw [Maze.visited_markVisited]
    have hne2 : ¬(p.1 = x ∧ p.2 = y) := by
      rintro ⟨h1, h2⟩
      apply hne
      obtain ⟨a, b⟩ := p
      simp only at h1 h2
      rw [h1, h2]
    simp [hne2]

lemma Maze.visitedCount_lt (m : Maze) {x y : Int}
    (hb : m.inBounds x y) (hv : (m.grid x y).visited = false) :
    m.visitedCount < m.width * m.height := by
  rw [← Maze.card_cellFinset]
  apply Finset.card_lt_card
  rw [Finset.ssubset_iff_of_subset (Finset.filter_subset _ _)]
  refine ⟨(x, y), mem_cellFinset.2 hb, ?_⟩
  simp [hv]

lemma mem_unvisitedNeighborDirs {m : Maze} {x y : Int} {d : Direction} :
    d ∈ m.unvisitedNeighborDirs x y ↔
      m.inBounds (x + (dirDelta d).1) (y + (dirDelta d).2) ∧
      (m.grid (x + (dirDelta d).1) (y + (dirDelta d).2)).visited = false := by
  have hd : d ∈ directionOrder := by cases d <;> simp [directionOrder]
  rw [Maze.unvisitedNeighborDirs, List.mem_filter]
  constructor
  · rintro ⟨-, hmatch⟩
    rcases hcell : m.get_cell (x + (dirDelta d).1) (y + (dirDelta d).2) with - | nb
    · rw [hcell] at hmatch
      simp at hmatch
    · rw [hcell] at hmatch
      simp only [Bool.not_eq_eq_eq_not, Bool.not_true] at hmatch
      rw [Maze.get_cell] at hcell
      by_cases hb : m.inBounds (x + (dirDelta d).1) (y + (dirDelta d).2)
      · rw [if_pos hb] at hcell
        obtain rfl := (Option.some.injEq .. ▸ hcell : m.grid _ _ = nb)
        exact ⟨hb, by simpa using hmatch⟩
      · rw [if_neg hb] at hcell
        exact absurd hcell (by simp)
  · rintro ⟨hb, hv⟩
    refine ⟨hd, ?_⟩
    have hcell : m.get_cell (x + (dirDelta d).1) (y + (dirDelta d).2) =
        some (m.grid (x + (dirDelta d).1) (y + (dirDelta d).2)) := by
      rw [Maze.get_cell, if_pos hb]
    rw [hcell]
    simp [hv]

/-! ### The DFS backtracking loop of `generate_maze` -/

/-- State of the `while stack:` loop: the maze being carved, the explicit
stack (top first; the source pushes/pops at the end of a Python list and
reads `stack[-1]`), and the PRNG. -/
structure GenSt where
  maze : Maze
  stack : List (Int × Int)
  rng : Rng

/-- One carve: `current.walls[direction] = False`,
`next_cell.walls[opposite[direction]] = False`, `next_cell.visited = True`. -/
def carve (m : Maze) (cx cy : Int) (d : Direction) : Maze :=
  ((m.openWall cx cy d).openWall (cx + (dirDelta d).1) (cy + (dirDelta d).2)
      (opposite d)).markVisited (cx + (dirDelta d).1) (cy + (dirDelta d).2)

lemma width_carve (m : Maze) (cx cy : Int) (d : Direction) :
    (carve m cx cy d).width = m.width := rfl

lemma height_carve (m : Maze) (cx cy : Int) (d : Direction) :
    (carve m cx cy d).height = m.height := rfl

lemma visitedCount_carve (m : Maze) (cx cy : Int) (d : Direction)
    (hb : m.inBounds (cx + (dirDelta d).1) (cy + (dirDelta d).2))
    (hv : (m.grid (cx + (dirDelta d).1) (cy + (dirDelta d).2)).visited = false) :
    (carve m cx cy d).visitedCount = m.visitedCount + 1 := by
  unfold carve
  have h1 := Maze.visitedCount_markVisited
    ((m.openWall cx cy d).openWall (cx + (dirDelta d).1) (cy + (dirDelta d).2) (opposite d))
    (cx + (dirDelta d).1) (cy + (dirDelta d).2) hb
    (by rw [Maze.visited_openWall, Maze.visited_openWall]; exact hv)
  rw [h1, Maze.visitedCount_openWall, Maze.visitedCount_openWall]

/-- Termination measure: each iteration either visits a fresh cell (pushing
one stack entry) or pops one entry. -/
def genMeasure (s : GenSt) : Nat :=
  2 * (s.maze.width * s.maze.height - s.maze.visitedCount) + s.stack.length

/-- The `while stack:` loop of `generate_maze`: look at the top of the
stack; if it has unvisited in-bounds neighbours, pick one uniformly at
random (`random.choice`), carve the shared wall, mark it visited and push
it; otherwise pop. -/
def dfsLoop (s : GenSt) : GenSt :=
  match hst : s.stack with
  | [] => s
  | (cx, cy) :: rest =>
    let unv := s.maze.unvisitedNeighborDirs cx cy
    if hu : unv = [] then
      dfsLoop ⟨s.maze, rest, s.rng⟩
    else
      let pr := s.rng.randBelow unv.length
      let d := unv.getD pr.1 Direction.north
      dfsLoop ⟨carve s.maze cx cy d, (cx + (dirDelta d).1, cy + (dirDelta d).2) :: s.stack, pr.2⟩
termination_by genMeasure s
decreasing_by
  · simp only [genMeasure, hst, List.length_cons]
    omega
  · have hlen : 0 < unv.length := List.length_pos.mpr hu
    have hidx : pr.1 < unv.length := by
      simp only [pr, Rng.randBelow, Rng.next]
      exact Nat.mod_lt _ hlen
    have hd : d ∈ unv := by
      simp only [d]
      rw [List.getD_eq_getElem _ _ hidx]
      exact List.getElem_mem hidx
    have hmem := mem_unvisitedNeighborDirs.1 hd
    have hlt := s.maze.visitedCount_lt hmem.1 hmem.2
    have hvc := visitedCount_carve s.maze cx cy d hmem.1 hmem.2
    simp only [genMeasure, width_carve, height_carve, hvc, hst, List.length_cons]
    omega

/-! ### Decision-node annotation of `generate_maze` -/

/-- One iteration of the decision-node pass: a cell with at least three open
sides is marked as a decision node with probability 0.3 and recorded in the
`decision_nodes` list. -/
def decisionStep (acc : Maze × List (Int × Int) × Rng) (p : Int × Int) :
    Maze × List (Int × Int) × Rng :=
  let m := acc.1
  let dns := acc.2.1
  let rng := acc.2.2
  if 3 ≤ (m.grid p.1 p.2).opening_count then
    let br := rng.chance30
    if br.1 then (m.markDecision p.1 p.2, dns ++ [p], br.2) else (m, dns, br.2)
  else (m, dns, rng)

/-- The first decision-node pass: the row-major double loop over all cells. -/
def decisionPass (m : Maze) (rng : Rng) : Maze × List (Int × Int) × Rng :=
  (coordsList m.width m.height).foldl decisionStep (m, [], rng)

/-- `x[i], x[j] = x[j], x[i]` on a list. -/
def listSwap (l : List (Int × Int)) (i j : Nat) : List (Int × Int) :=
  (l.set i (l.getD j (0, 0))).set j (l.getD i (0, 0))

/-- The Fisher-Yates loop of `random.shuffle`:
`for i in reversed(range(1, len(x))): j = _randbelow(i + 1); swap x[i], x[j]`. -/
def shuffleGo : List (Int × Int) → Rng → Nat → List (Int × Int) × Rng
  | l, rng, 0 => (l, rng)
  | l, rng, i + 1 =>
    let pr := rng.randBelow (i + 2)
    shuffleGo (listSwap l (i + 1) pr.1) pr.2 i

/-- `random.shuffle(x)`. -/
def shuffle (l : List (Int × Int)) (rng : Rng) : List (Int × Int) × Rng :=
  shuffleGo l rng (l.length - 1)

/-- The deficit-filling pass: if fewer than 5 decision nodes were marked,
shuffle the cells with at least two open sides that are not yet decision
nodes and mark a prefix of them. -/
def fillPass (m : Maze) (dns : List (Int × Int)) (rng : Rng) : Maze × Rng :=
  if dns.length < 5 then
    let candidates := (coordsList m.width m.height).filter
      (fun p => decide (2 ≤ (m.grid p.1 p.2).opening_count) && !(m.grid p.1 p.2).decision_node)
    let sh := shuffle candidates rng
    ((sh.1.take (5 - dns.length)).foldl (fun mm p => mm.markDecision p.1 p.2) m, sh.2)
  else (m, rng)

/-- `generate_maze` with an explicit PRNG (the stream that
`random.seed(seed)` installs); carving, then the probabilistic decision-node
pass, then the deficit-filling pass. -/
def generateMazeWith (width height seed : Nat) (rng : Rng) : Maze :=
  let maze0 : Maze := { width := width, height := height, seed := seed,
                        grid := fun x y => Cell.init x y, start_pos := (0, 0) }
  let maze1 := maze0.markVisited 0 0
  let sEnd := dfsLoop ⟨maze1, [(0, 0)], rng⟩
  let dp := decisionPass sEnd.maze sEnd.rng
  let fp := fillPass dp.1 dp.2.1 dp.2.2
  { fp.1 with start_pos := (0, 0) }

/-- `generate_maze(width, height, seed)` for a supplied seed (when the seed
argument is `None` the source draws one at random and proceeds
identically, so properties proved for every seed cover that case). -/
def generate_maze (width height : Nat) (seed : Nat) : Maze :=
  generateMazeWith width height seed (pythonSeed seed)

/-- Number of decision-node cells. -/
def Maze.decisionCount (m : Maze) : Nat :=
  (m.cellFinset.filter (fun p => (m.grid p.1 p.2).decision_node = true)).card

/-- Number of cells with at least two open sides. -/
def Maze.ge2OpenCount (m : Maze) : Nat :=
  (m.cellFinset.filter (fun p => 2 ≤ (m.grid p.1 p.2).opening_count)).card

/-! ### `random.shuffle` permutes its input -/

lemma cons_set_perm (x : Int × Int) :
    ∀ (l : List (Int × Int)) (k : Nat), k < l.length →
      (l.getD k (0, 0) :: l.set k x).Perm (x :: l) := by
  intro l
  induction l with
  | nil =>
    intro k hk
    simp at hk
  | cons a t ih =>
    intro k hk
    cases k with
    | zero =>
      simp only [List.getD_cons_zero, List.set_cons_zero]
      exact List.Perm.swap x a t
    | succ k =>
      have hk' : k < t.length := by simpa using hk
      simp only [List.getD_cons_succ, List.set_cons_succ]
      have h1 : (t.getD k (0, 0) :: a :: t.set k x).Perm
          (a :: t.getD k (0, 0) :: t.set k x) := List.Perm.swap a _ _
      have h2 : (a :: t.getD k (0, 0) :: t.set k x).Perm (a :: x :: t) :=
        (ih k hk').cons a
      have h3 : (a :: x :: t).Perm (x :: a :: t) := List.Perm.swap x a t
      exact (h1.trans h2).trans h3

lemma listSwap_perm :
    ∀ (l : List (Int × Int)) (i j : Nat), i < l.length → j < l.length →
      (listSwap l i j).Perm l := by
  intro l
  induction l with
  | nil =>
    intro i j hi _
    simp at hi
  | cons a t ih =>
    intro i j hi hj
    cases i with
    | zero =>
      cases j with
      | zero =>
        simp [listSwap]
      | succ k =>
        have hk : k < t.length := by simpa using hj
        simp only [listSwap, List.getD_cons_succ, List.getD_cons_zero,
          List.set_cons_zero, List.set_cons_succ]
        exact cons_set_perm a t k hk
    | succ m =>
      cases j with
      | zero =>
        have hm : m < t.length := by simpa using hi
        simp only [listSwap, List.getD_cons_succ, List.getD_cons_zero,
          List.set_cons_zero, List.set_cons_succ]
        exact cons_set_perm a t m hm
      | succ k =>
        have hm : m < t.length := by simpa using hi
        have hk : k < t.length := by simpa using hj
        simp only [listSwap, List.getD_cons_succ, List.set_cons_succ]
        exact List.Perm.cons a (ih m k hm hk)

lemma listSwap_length (l : List (Int × Int)) (i j : Nat) :
    (listSwap l i j).length = l.length := by
  simp [listSwap]

lemma shuffleGo_perm :
    ∀ (i : Nat) (l : List (Int × Int)) (rng : Rng), i < l.length →
      (shuffleGo l rng i).1.Perm l := by
  intro i
  induction i with
  | zero =>
    intro l rng _
    simp [shuffleGo]
  | succ i ih =>
    intro l rng h
    rw [shuffleGo]
    have hswap := listSwap_perm l (i + 1) (rng.randBelow (i + 2)).1 h
      (lt_of_lt_of_le (Nat.mod_lt _ (by omega)) (by omega))
    have hlen : (listSwap l (i + 1) (rng.randBelow (i + 2)).1).length = l.length :=
      listSwap_length ..
    exact (ih _ _ (by rw [hlen]; omega)).trans hswap

lemma shuffle_perm (l : List (Int × Int)) (rng : Rng) : (shuffle l rng).1.Perm l := by
  cases l with
  | nil => simp [shuffle, shuffleGo]
  | cons a t => exact shuffleGo_perm _ _ _ (by simp [shuffle])

/-! ### Spanning-tree invariants of the carving loop -/

lemma dirDelta_opposite (d : Direction) :
    (dirDelta (opposite d)).1 = -(dirDelta d).1 ∧
    (dirDelta (opposite d)).2 = -(dirDelta d).2 := by
  cases d <;> simp [dirDelta, opposite]

lemma grid_carve_visited (m : Maze) (cx cy : Int) (d : Direction) (a b : Int) :
    ((carve m cx cy d).grid a b).visited =
      if a = cx + (dirDelta d).1 ∧ b = cy + (dirDelta d).2 then true
      else (m.grid a b).visited := by
  unfold carve
  rw [Maze.visited_markVisited, Maze.visited_openWall, Maze.visited_openWall]

lemma grid_carve_walls (m : Maze) (cx cy : Int) (d : Direction) (a b : Int) (e : Direction) :
    ((carve m cx cy d).grid a b).walls e =
      if (a = cx + (dirDelta d).1 ∧ b = cy + (dirDelta d).2) ∧ e = opposite d then false
      else if (a = cx ∧ b = cy) ∧ e = d then false
      else (m.grid a b).walls e := by
  unfold carve
  rw [Maze.walls_markVisited, Maze.walls_openWall, Maze.walls_openWall]

lemma grid_carve_decision (m : Maze) (cx cy : Int) (d : Direction) (a b : Int) :
    ((carve m cx cy d).grid a b).decision_node = (m.grid a b).decision_node := by
  unfold carve
  rw [Maze.decision_markVisited, Maze.decision_openWall, Maze.decision_openWall]

lemma removedWallCount_congr (m' m : Maze) (hS : m'.cellFinset = m.cellFinset)
    (hw : ∀ (p : Int × Int) (e : Direction), p ∈ m.cellFinset →
      (e = Direction.east ∨ e = Direction.south) →
      ((m'.grid p.1 p.2).walls e = false ↔ (m.grid p.1 p.2).walls e = false)) :
    m'.removedWallCount = m.removedWallCount := by
  unfold Maze.removedWallCount
  rw [hS]
  congr 1
  apply Finset.filter_congr
  intro pd hpd
  rw [Finset.mem_product] at hpd
  have he : pd.2 = Direction.east ∨ pd.2 = Direction.south := by
    have h2 := hpd.2
    simpa using h2
  exact hw pd.1 pd.2 hpd.1 he

lemma removedWallCount_markVisited (m : Maze) (x y : Int) :
    (m.markVisited x y).removedWallCount = m.removedWallCount :=
  removedWallCount_congr _ _ rfl (fun p e _ _ => by rw [Maze.walls_markVisited])

lemma removedWallCount_openWall_notES (m : Maze) (x y : Int) (e : Direction)
    (he : e = Direction.north ∨ e = Direction.west) :
    (m.openWall x y e).removedWallCount = m.removedWallCount := by
  apply removedWallCount_congr (m.openWall x y e) m rfl
  intro p f _ hf
  rw [Maze.walls_openWall]
  have hne : ¬((p.1 = x ∧ p.2 = y) ∧ f = e) := by
    rcases he with rfl | rfl <;> rcases hf with rfl | rfl <;> simp
  simp [hne]

lemma removedWallCount_openWall_ES (m : Maze) (x y : Int) (e : Direction)
    (he : e = Direction.east ∨ e = Direction.south)
    (hb : m.inBounds x y) (hc : (m.grid x y).walls e = true) :
    (m.openWall x y e).removedWallCount = m.removedWallCount + 1 := by
  unfold Maze.removedWallCount
  have hS : (m.openWall x y e).cellFinset = m.cellFinset := rfl
  rw [hS]
  apply card_filter_flip _ _ _ ((x, y), e)
  · rw [Finset.mem_product]
    refine ⟨mem_cellFinset.2 hb, ?_⟩
    rcases he with rfl | rfl <;> simp
  · simp [hc]
  · rw [Maze.walls_openWall]
    simp
  · intro pd hpd hne
    rw [Maze.walls_openWall]
    have hne2 : ¬((pd.1.1 = x ∧ pd.1.2 = y) ∧ pd.2 = e) := by
      rintro ⟨⟨h1, h2⟩, h3⟩
      apply hne
      obtain ⟨⟨a, b⟩, f⟩ := pd
      simp only at h1 h2 h3
      rw [h1, h2, h3]
    simp [hne2]

lemma opposite_opposite (d : Direction) : opposite (opposite d) = d := by
  cases d <;> rfl

lemma reach_mono {m m' : Maze}
    (hw : ∀ a b e, (m.grid a b).walls e = false → (m'.grid a b).walls e = false)
    {p q : Int × Int} (h : m.Reach p q) : m'.Reach p q := by
  induction h with
  | refl => exact Relation.ReflTransGen.refl
  | tail _ hbc ih =>
    obtain ⟨e, h1, h2, h3⟩ := hbc
    exact ih.tail ⟨e, h1, h2, hw _ _ _ h3⟩

lemma carve_visited_mono (m : Maze) (cx cy : Int) (d : Direction) (a b : Int)
    (h : (m.grid a b).visited = true) :
    ((carve m cx cy d).grid a b).visited = true := by
  rw [grid_carve_visited]
  split <;> simp [h]

lemma carve_walls_mono (m : Maze) (cx cy : Int) (d : Direction) (a b : Int) (e : Direction)
    (h : (m.grid a b).walls e = false) :
    ((carve m cx cy d).grid a b).walls e = false := by
  rw [grid_carve_walls]
  split
  · rfl
  · split
    · rfl
    · exact h

lemma removedWallCount_carve (m : Maze) (cx cy : Int) (d : Direction)
    (hb_c : m.inBounds cx cy)
    (hb_n : m.inBounds (cx + (dirDelta d).1) (cy + (dirDelta d).2))
    (hc_c : (m.grid cx cy).walls d = true)
    (hc_n : (m.grid (cx + (dirDelta d).1) (cy + (dirDelta d).2)).walls (opposite d) = true) :
    (carve m cx cy d).removedWallCount = m.removedWallCount + 1 := by
  unfold carve
  rw [removedWallCount_markVisited]
  cases d with
  | east =>
    rw [removedWallCount_openWall_notES _ _ _ _ (by simp [opposite]),
      removedWallCount_openWall_ES m cx cy _ (by simp) hb_c hc_c]
  | south =>
    rw [removedWallCount_openWall_notES _ _ _ _ (by simp [opposite]),
      removedWallCount_openWall_ES m cx cy _ (by simp) hb_c hc_c]
  | north =>
    have h1 : ((m.openWall cx cy Direction.north).grid (cx + (dirDelta Direction.north).1)
        (cy + (dirDelta Direction.north).2)).walls (opposite Direction.north) = true := by
      rw [Maze.walls_openWall]
      simpa [opposite] using hc_n
    rw [removedWallCount_openWall_ES (m.openWall cx cy Direction.north) _ _ _
        (by simp [opposite]) hb_n h1,
      removedWallCount_openWall_notES m cx cy Direction.north (Or.inl rfl)]
  | west =>
    have h1 : ((m.openWall cx cy Direction.west).grid (cx + (dirDelta Direction.west).1)
        (cy + (dirDelta Direction.west).2)).walls (opposite Direction.west) = true := by
      rw [Maze.walls_openWall]
      simpa [opposite] using hc_n
    rw [removedWallCount_openWall_ES (m.openWall cx cy Direction.west) _ _ _
        (by simp [opposite]) hb_n h1,
      removedWallCount_openWall_notES m cx cy Direction.west (Or.inr rfl)]

/-- Loop invariant of the carving DFS: walls are closed towards and inside
unvisited or out-of-bounds territory, carving is symmetric, the stack holds
visited in-bounds cells, the carved passages count one wall per newly
visited cell, every visited cell is reachable from the start, and a visited
cell that has left the stack has no unvisited in-bounds neighbour. -/
structure CarveInv (s : GenSt) : Prop where
  oob_closed : ∀ x y, ¬s.maze.inBounds x y → ∀ d, (s.maze.grid x y).walls d = true
  unvisited_closed : ∀ x y, (s.maze.grid x y).visited = false →
      ∀ d, (s.maze.grid x y).walls d = true
  stack_bounds : ∀ p ∈ s.stack, s.maze.inBounds p.1 p.2
  stack_visited : ∀ p ∈ s.stack, (s.maze.grid p.1 p.2).visited = true
  sym : ∀ x y d, s.maze.inBounds x y → (s.maze.grid x y).walls d = false →
      s.maze.inBounds (x + (dirDelta d).1) (y + (dirDelta d).2) ∧
      (s.maze.grid (x + (dirDelta d).1) (y + (dirDelta d).2)).walls (opposite d) = false
  count : s.maze.removedWallCount + 1 = s.maze.visitedCount
  reach : ∀ x y, s.maze.inBounds x y → (s.maze.grid x y).visited = true →
      s.maze.Reach (0, 0) (x, y)
  closure : ∀ x y, s.maze.inBounds x y → (s.maze.grid x y).visited = true →
      (x, y) ∉ s.stack → ∀ d, s.maze.inBounds (x + (dirDelta d).1) (y + (dirDelta d).2) →
      (s.maze.grid (x + (dirDelta d).1) (y + (dirDelta d).2)).visited = true
  origin : (s.maze.grid 0 0).visited = true

lemma carveInv_pop (m : Maze) (rng rng' : Rng) (cx cy : Int) (rest : List (Int × Int))
    (hinv : CarveInv ⟨m, (cx, cy) :: rest, rng⟩)
    (hu : m.unvisitedNeighborDirs cx cy = []) :
    CarveInv ⟨m, rest, rng'⟩ := by
  obtain ⟨oob, uc, sb, sv, sym, cnt, rch, cls, org⟩ := hinv
  refine ⟨oob, uc, ?_, ?_, sym, cnt, rch, ?_, org⟩
  · intro p hp
    exact sb p (List.mem_cons_of_mem _ hp)
  · intro p hp
    exact sv p (List.mem_cons_of_mem _ hp)
  · intro x y hb hv hns d hbn
    by_cases hq : (x, y) = (cx, cy)
    · have hx : x = cx := congrArg Prod.fst hq
      have hy : y = cy := congrArg Prod.snd hq
      subst hx
      subst hy
      by_contra hnv
      have hmem : d ∈ m.unvisitedNeighborDirs x y :=
        mem_unvisitedNeighborDirs.2 ⟨hbn, by simpa using hnv⟩
      rw [hu] at hmem
      simp at hmem
    · refine cls x y hb hv ?_ d hbn
      rw [List.mem_cons]
      rintro (h | h)
      · exact hq h
      · exact hns h

lemma carveInv_push (m : Maze) (rng rng' : Rng) (cx cy : Int) (rest : List (Int × Int))
    (d : Direction)
    (hinv : CarveInv ⟨m, (cx, cy) :: rest, rng⟩)
    (hd : d ∈ m.unvisitedNeighborDirs cx cy) :
    CarveInv ⟨carve m cx cy d,
      (cx + (dirDelta d).1, cy + (dirDelta d).2) :: (cx, cy) :: rest, rng'⟩ := by
  obtain ⟨oob, uc, sb, sv, sym, cnt, rch, cls, org⟩ := hinv
  obtain ⟨hb_n, hv_n⟩ := mem_unvisitedNeighborDirs.1 hd
  have hb_c : m.inBounds cx cy := sb (cx, cy) (List.mem_cons_self _ _)
  have hv_c : (m.grid cx cy).visited = true := sv (cx, cy) (List.mem_cons_self _ _)
  have hc_n : ∀ e, (m.grid (cx + (dirDelta d).1) (cy + (dirDelta d).2)).walls e = true :=
    uc _ _ hv_n
  have hc_c : (m.grid cx cy).walls d = true := by
    by_contra h
    have hopen : (m.grid cx cy).walls d = false := by simpa using h
    have hh := (sym cx cy d hb_c hopen).2
    rw [hc_n (opposite d)] at hh
    exact absurd hh (by simp)
  have hdiff : ¬(cx = cx + (dirDelta d).1 ∧ cy = cy + (dirDelta d).2) := by
    rintro ⟨h1, h2⟩
    cases d <;> simp [dirDelta] at h1 h2 <;> omega
  have hdiff2 : ¬(cx + (dirDelta d).1 = cx ∧ cy + (dirDelta d).2 = cy) := by
    rintro ⟨h1, h2⟩
    exact hdiff ⟨h1.symm, h2.symm⟩
  refine ⟨?_, ?_, ?_, ?_, ?_, ?_, ?_, ?_, ?_⟩
  · -- oob_closed
    intro x y hnb e
    have hnb' : ¬m.inBounds x y := hnb
    have hne1 : ¬((x = cx + (dirDelta d).1 ∧ y = cy + (dirDelta d).2) ∧ e = opposite d) := by
      rintro ⟨⟨rfl, rfl⟩, -⟩
      exact hnb' hb_n
    have hne2 : ¬((x = cx ∧ y = cy) ∧ e = d) := by
      rintro ⟨⟨rfl, rfl⟩, -⟩
      exact hnb' hb_c
    rw [grid_carve_walls, if_neg hne1, if_neg hne2]
    exact oob x y hnb' e
  · -- unvisited_closed
    intro x y hv e
    rw [grid_carve_visited] at hv
    by_cases h1 : x = cx + (dirDelta d).1 ∧ y = cy + (dirDelta d).2
    · rw [if_pos h1] at hv
      exact absurd hv (by simp)
    · rw [if_neg h1] at hv
      have hne2 : ¬((x = cx ∧ y = cy) ∧ e = d) := by
        rintro ⟨⟨rfl, rfl⟩, -⟩
        rw [hv_c] at hv
        exact absurd hv (by simp)
      rw [grid_carve_walls, if_neg (by simp [h1]), if_neg hne2]
      exact uc x y hv e
  · -- stack_bounds
    intro p hp
    rw [List.mem_cons] at hp
    rcases hp with rfl | hp
    · exact hb_n
    · exact sb p hp
  · -- stack_visited
    intro p hp
    rw [List.mem_cons] at hp
    rcases hp with rfl | hp
    · rw [grid_carve_visited, if_pos ⟨rfl, rfl⟩]
    · exact carve_visited_mono m cx cy d _ _ (sv p hp)
  · -- sym
    intro x y e hb hopen
    rw [grid_carve_walls] at hopen
    by_cases h1 : (x = cx + (dirDelta d).1 ∧ y = cy + (dirDelta d).2) ∧ e = opposite d
    · obtain ⟨⟨rfl, rfl⟩, rfl⟩ := h1
      have hco1 : cx + (dirDelta d).1 + (dirDelta (opposite d)).1 = cx := by
        rw [(dirDelta_opposite d).1]
        ring
      have hco2 : cy + (dirDelta d).2 + (dirDelta (opposite d)).2 = cy := by
        rw [(dirDelta_opposite d).2]
        ring
      rw [hco1, hco2, opposite_opposite]
      refine ⟨hb_c, ?_⟩
      rw [grid_carve_walls, if_neg (by rintro ⟨h, -⟩; exact hdiff h), if_pos ⟨⟨rfl, rfl⟩, rfl⟩]
    · rw [if_neg h1] at hopen
      by_cases h2 : (x = cx ∧ y = cy) ∧ e = d
      · obtain ⟨⟨rfl, rfl⟩, rfl⟩ := h2
        refine ⟨hb_n, ?_⟩
        rw [grid_carve_walls, if_pos ⟨⟨rfl, rfl⟩, rfl⟩]
      · rw [if_neg h2] at hopen
        obtain ⟨hbq, holdq⟩ := sym x y e hb hopen
        exact ⟨hbq, carve_walls_mono m cx cy d _ _ _ holdq⟩
  · -- count
    have hrc := removedWallCount_carve m cx cy d hb_c hb_n hc_c (hc_n (opposite d))
    have hvc := visitedCount_carve m cx cy d hb_n hv_n
    have cnt' : m.removedWallCount + 1 = m.visitedCount := cnt
    rw [hrc, hvc]
    omega
  · -- reach
    intro x y hb hv
    rw [grid_carve_visited] at hv
    by_cases h1 : x = cx + (dirDelta d).1 ∧ y = cy + (dirDelta d).2
    · obtain ⟨rfl, rfl⟩ := h1
      have hrc : (carve m cx cy d).Reach (0, 0) (cx, cy) :=
        reach_mono (carve_walls_mono m cx cy d) (rch cx cy hb_c hv_c)
      refine hrc.tail ?_
      refine ⟨d, rfl, rfl, ?_⟩
      rw [grid_carve_walls, if_neg (by rintro ⟨h, -⟩; exact hdiff h), if_pos ⟨⟨rfl, rfl⟩, rfl⟩]
    · rw [if_neg h1] at hv
      exact reach_mono (carve_walls_mono m cx cy d) (rch x y hb hv)
  · -- closure
    intro x y hb hv hns e hbn
    rw [List.mem_cons, not_or] at hns
    obtain ⟨hns1, hns2⟩ := hns
    have hne : ¬(x = cx + (dirDelta d).1 ∧ y = cy + (dirDelta d).2) := by
      rintro ⟨rfl, rfl⟩
      exact hns1 rfl
    rw [grid_carve_visited, if_neg hne] at hv
    by_cases hqn : x + (dirDelta e).1 = cx + (dirDelta d).1 ∧
        y + (dirDelta e).2 = cy + (dirDelta d).2
    · rw [grid_carve_visited, if_pos hqn]
    · rw [grid_carve_visited, if_neg hqn]
      exact cls x y hb hv hns2 e hbn
  · -- origin
    exact carve_visited_mono m cx cy d 0 0 org

lemma dfsLoop_nil (s : GenSt) (h : s.stack = []) : dfsLoop s = s := by
  obtain ⟨m, st, rng⟩ := s
  simp only at h
  subst h
  rw [dfsLoop]

lemma dfsLoop_cons_pop (m : Maze) (rng : Rng) (cx cy : Int) (rest : List (Int × Int))
    (hu : m.unvisitedNeighborDirs cx cy = []) :
    dfsLoop ⟨m, (cx, cy) :: rest, rng⟩ = dfsLoop ⟨m, rest, rng⟩ := by
  rw [dfsLoop]
  simp [hu]

lemma dfsLoop_cons_push (m : Maze) (rng : Rng) (cx cy : Int) (rest : List (Int × Int))
    (hu : ¬(m.unvisitedNeighborDirs cx cy = [])) :
    dfsLoop ⟨m, (cx, cy) :: rest, rng⟩ =
      dfsLoop ⟨carve m cx cy ((m.unvisitedNeighborDirs cx cy).getD
          (rng.randBelow (m.unvisitedNeighborDirs cx cy).length).1 Direction.north),
        (cx + (dirDelta ((m.unvisitedNeighborDirs cx cy).getD
            (rng.randBelow (m.unvisitedNeighborDirs cx cy).length).1 Direction.north)).1,
          cy + (dirDelta ((m.unvisitedNeighborDirs cx cy).getD
            (rng.randBelow (m.unvisitedNeighborDirs cx cy).length).1 Direction.north)).2) ::
          (cx, cy) :: rest,
        (rng.randBelow (m.unvisitedNeighborDirs cx cy).length).2⟩ := by
  rw [dfsLoop]
  simp [hu]

lemma dfsLoop_spec : ∀ (s : GenSt), CarveInv s →
    CarveInv (dfsLoop s) ∧ (dfsLoop s).stack = [] ∧
    (dfsLoop s).maze.width = s.maze.width ∧ (dfsLoop s).maze.height = s.maze.height := by
  intro s
  induction s using dfsLoop.induct with
  | case1 s hst =>
    intro hinv
    rw [dfsLoop_nil s hst]
    exact ⟨hinv, hst, rfl, rfl⟩
  | case2 s cx cy rest hst unv hu ih =>
    obtain ⟨m, st, rng⟩ := s
    simp only at hst
    subst hst
    intro hinv
    rw [dfsLoop_cons_pop m rng cx cy rest hu]
    have h2 := ih (carveInv_pop m rng rng cx cy rest hinv hu)
    exact ⟨h2.1, h2.2.1, h2.2.2.1, h2.2.2.2⟩
  | case3 s cx cy rest hst unv hu pr d ih =>
    obtain ⟨m, st, rng⟩ := s
    simp only at hst
    subst hst
    intro hinv
    have hlen : 0 < unv.length := List.length_pos.mpr hu
    have hidx : pr.1 < unv.length := by
      simp only [pr, Rng.randBelow, Rng.next]
      exact Nat.mod_lt _ hlen
    have hd : d ∈ unv := by
      simp only [d]
      rw [List.getD_eq_getElem _ _ hidx]
      exact List.getElem_mem hidx
    rw [dfsLoop_cons_push m rng cx cy rest hu]
    have h2 := ih (carveInv_push m rng pr.2 cx cy rest d hinv hd)
    exact ⟨h2.1, h2.2.1, h2.2.2.1, h2.2.2.2⟩

lemma dfsLoop_decision : ∀ (s : GenSt) (a b : Int),
    ((dfsLoop s).maze.grid a b).decision_node = (s.maze.grid a b).decision_node := by
  intro s
  induction s using dfsLoop.induct with
  | case1 s hst =>
    intro a b
    rw [dfsLoop_nil s hst]
  | case2 s cx cy rest hst unv hu ih =>
    obtain ⟨m, st, rng⟩ := s
    simp only at hst
    subst hst
    intro a b
    rw [dfsLoop_cons_pop m rng cx cy rest hu]
    exact ih a b
  | case3 s cx cy rest hst unv hu pr d ih =>
    obtain ⟨m, st, rng⟩ := s
    simp only at hst
    subst hst
    intro a b
    rw [dfsLoop_cons_push m rng cx cy rest hu]
    rw [ih a b]
    exact grid_carve_decision ..

/-- A maze whose visited region is closed under in-bounds adjacency and
contains the origin has every in-bounds cell visited (induction on the
taxicab distance from the origin). -/
lemma all_visited_of_closed (m : Maze) (horg : (m.grid 0 0).visited = true)
    (hcl : ∀ x y, m.inBounds x y → (m.grid x y).visited = true →
      ∀ d, m.inBounds (x + (dirDelta d).1) (y + (dirDelta d).2) →
      (m.grid (x + (dirDelta d).1) (y + (dirDelta d).2)).visited = true) :
    ∀ x y, m.inBounds x y → (m.grid x y).visited = true := by
  have main : ∀ n : Nat, ∀ x y : Int, m.inBounds x y → (x + y).toNat = n →
      (m.grid x y).visited = true := by
    intro n
    induction n using Nat.strong_induction_on with
    | _ n ih =>
      intro x y hb hn
      by_cases hx : 0 < x
      · have hb' : m.inBounds (x - 1) y := by
          unfold Maze.inBounds at hb ⊢
          omega
        have hlt : ((x - 1) + y).toNat < n := by
          unfold Maze.inBounds at hb
          omega
        have hv' := ih _ hlt (x - 1) y hb' rfl
        have heast := hcl (x - 1) y hb' hv' Direction.east
        have hco1 : x - 1 + (dirDelta Direction.east).1 = x := by
          simp [dirDelta]
        have hco2 : y + (dirDelta Direction.east).2 = y := by
          simp [dirDelta]
        rw [hco1, hco2] at heast
        exact heast hb
      · by_cases hy : 0 < y
        · have hb' : m.inBounds x (y - 1) := by
            unfold Maze.inBounds at hb ⊢
            omega
          have hlt : (x + (y - 1)).toNat < n := by
            unfold Maze.inBounds at hb
            omega
          have hv' := ih _ hlt x (y - 1) hb' rfl
          have hsouth := hcl x (y - 1) hb' hv' Direction.south
          have hco1 : x + (dirDelta Direction.south).1 = x := by
            simp [dirDelta]
          have hco2 : y - 1 + (dirDelta Direction.south).2 = y := by
            simp [dirDelta]
          rw [hco1, hco2] at hsouth
          exact hsouth hb
        · have hxy : x = 0 ∧ y = 0 := by
            unfold Maze.inBounds at hb
            omega
          obtain ⟨rfl, rfl⟩ := hxy
          exact horg
  intro x y hb
  exact main (x + y).toNat x y hb rfl

lemma Maze.visitedCount_eq_full (m : Maze)
    (hall : ∀ x y, m.inBounds x y → (m.grid x y).visited = true) :
    m.visitedCount = m.width * m.height := by
  unfold Maze.visitedCount
  rw [← Maze.card_cellFinset]
  congr 1
  apply Finset.filter_true_of_mem
  intro p hp
  exact hall p.1 p.2 (mem_cellFinset.1 hp)

/-- The generation state at the top of the `while stack:` loop:
all cells fully walled, `(0, 0)` visited and pushed. -/
def genStart (width height seed : Nat) (rng : Rng) : GenSt :=
  ⟨({ width := width, height := height, seed := seed,
      grid := fun x y => Cell.init x y, start_pos := (0, 0) } : Maze).markVisited 0 0,
    [(0, 0)], rng⟩

lemma initial_inv (width height seed : Nat) (rng : Rng) (hw : 1 ≤ width) (hh : 1 ≤ height) :
    CarveInv (genStart width height seed rng) := by
  have hmz : (genStart width height seed rng).maze =
      ({ width := width, height := height, seed := seed,
         grid := fun x y => Cell.init x y, start_pos := (0, 0) } : Maze).markVisited 0 0 := rfl
  have hb0 : (genStart width height seed rng).maze.inBounds 0 0 := by
    unfold Maze.inBounds
    refine ⟨le_refl 0, ?_, le_refl 0, ?_⟩
    · show (0 : Int) < (width : Int)
      exact_mod_cast hw
    · show (0 : Int) < (height : Int)
      exact_mod_cast hh
  have hwalls : ∀ a b e, ((genStart width height seed rng).maze.grid a b).walls e = true := by
    intro a b e
    rw [hmz, Maze.walls_markVisited]
    rfl
  have hvis : ∀ a b, ((genStart width height seed rng).maze.grid a b).visited =
      if a = 0 ∧ b = 0 then true else false := by
    intro a b
    rw [hmz, Maze.visited_markVisited]
    rfl
  refine ⟨?_, ?_, ?_, ?_, ?_, ?_, ?_, ?_, ?_⟩
  · intro x y _ d
    exact hwalls x y d
  · intro x y _ d
    exact hwalls x y d
  · intro p hp
    have hstk : (genStart width height seed rng).stack = [((0 : Int), (0 : Int))] := rfl
    rw [hstk, List.mem_singleton] at hp
    subst hp
    exact hb0
  · intro p hp
    have hstk : (genStart width height seed rng).stack = [((0 : Int), (0 : Int))] := rfl
    rw [hstk, List.mem_singleton] at hp
    subst hp
    rw [hvis]
    simp
  · intro x y d _ hopen
    rw [hwalls] at hopen
    exact absurd hopen (by simp)
  · have hrw : (genStart width height seed rng).maze.removedWallCount = 0 := by
      unfold Maze.removedWallCount
      rw [Finset.card_eq_zero]
      apply Finset.filter_false_of_mem
      intro pd _
      rw [hwalls]
      simp
    have hvc : (genStart width height seed rng).maze.visitedCount = 1 := by
      unfold Maze.visitedCount
      have hflt : ((genStart width height seed rng).maze.cellFinset.filter
          (fun p => ((genStart width height seed rng).maze.grid p.1 p.2).visited = true)) =
          {((0 : Int), (0 : Int))} := by
        ext p
        rw [Finset.mem_filter, Finset.mem_singleton, hvis]
        constructor
        · rintro ⟨-, hp⟩
          by_cases hc : p.1 = 0 ∧ p.2 = 0
          · obtain ⟨a, b⟩ := p
            simp only at hc
            rw [hc.1, hc.2]
          · rw [if_neg hc] at hp
            exact absurd hp (by simp)
        · rintro rfl
          exact ⟨mem_cellFinset.2 hb0, by simp⟩
      rw [hflt]
      rfl
    rw [hrw, hvc]
  · intro x y hb hv
    rw [hvis] at hv
    by_cases hc : x = 0 ∧ y = 0
    · obtain ⟨rfl, rfl⟩ := hc
      exact Relation.ReflTransGen.refl
    · rw [if_neg hc] at hv
      exact absurd hv (by simp)
  · intro x y hb hv hns d hbn
    rw [hvis] at hv
    by_cases hc : x = 0 ∧ y = 0
    · obtain ⟨rfl, rfl⟩ := hc
      have hstk : (genStart width height seed rng).stack = [((0 : Int), (0 : Int))] := rfl
      rw [hstk] at hns
      exact absurd (List.mem_singleton_self _) hns
    · rw [if_neg hc] at hv
      exact absurd hv (by simp)
  · rw [hvis]
    simp

lemma dfsLoop_dims : ∀ (s : GenSt),
    (dfsLoop s).maze.width = s.maze.width ∧ (dfsLoop s).maze.height = s.maze.height := by
  intro s
  induction s using dfsLoop.induct with
  | case1 s hst =>
    rw [dfsLoop_nil s hst]
    exact ⟨rfl, rfl⟩
  | case2 s cx cy rest hst unv hu ih =>
    obtain ⟨m, st, rng⟩ := s
    simp only at hst
    subst hst
    rw [dfsLoop_cons_pop m rng cx cy rest hu]
    exact ih
  | case3 s cx cy rest hst unv hu pr d ih =>
    obtain ⟨m, st, rng⟩ := s
    simp only at hst
    subst hst
    rw [dfsLoop_cons_push m rng cx cy rest hu]
    exact ih

/-- Wall openings are symmetric and never lead out of bounds. -/
def Maze.wallsSymmetric (m : Maze) : Prop :=
  ∀ x y d, m.inBounds x y → (m.grid x y).walls d = false →
    m.inBounds (x + (dirDelta d).1) (y + (dirDelta d).2) ∧
    (m.grid (x + (dirDelta d).1) (y + (dirDelta d).2)).walls (opposite d) = false

lemma carving_spec (w h seed : Nat) (rng : Rng) (hw : 1 ≤ w) (hh : 1 ≤ h) :
    (dfsLoop (genStart w h seed rng)).maze.width = w ∧
    (dfsLoop (genStart w h seed rng)).maze.height = h ∧
    (∀ x y, (dfsLoop (genStart w h seed rng)).maze.inBounds x y →
      (dfsLoop (genStart w h seed rng)).maze.Reach (0, 0) (x, y)) ∧
    (dfsLoop (genStart w h seed rng)).maze.removedWallCount = w * h - 1 ∧
    Maze.wallsSymmetric (dfsLoop (genStart w h seed rng)).maze ∧
    (∀ x y, ¬(dfsLoop (genStart w h seed rng)).maze.inBounds x y →
      ∀ d, ((dfsLoop (genStart w h seed rng)).maze.grid x y).walls d = true) := by
  obtain ⟨hinv, hstk, hW, hH⟩ := dfsLoop_spec _ (initial_inv w h seed rng hw hh)
  have hW' : (dfsLoop (genStart w h seed rng)).maze.width = w := by
    rw [hW]
    rfl
  have hH' : (dfsLoop (genStart w h seed rng)).maze.height = h := by
    rw [hH]
    rfl
  have hall := all_visited_of_closed _ hinv.origin
    (fun x y hb hv d hbn =>
      hinv.closure x y hb hv (by rw [hstk]; exact List.not_mem_nil _) d hbn)
  have hvc := Maze.visitedCount_eq_full _ hall
  have hcount := hinv.count
  refine ⟨hW', hH', ?_, ?_, hinv.sym, hinv.oob_closed⟩
  · intro x y hb
    exact hinv.reach x y hb (hall x y hb)
  · rw [hvc, hW', hH'] at hcount
    omega

/-! ### The decision passes do not modify walls, visited flags or size -/

lemma decisionStep_pres (acc : Maze × List (Int × Int) × Rng) (p : Int × Int) :
    (decisionStep acc p).1.width = acc.1.width ∧
    (decisionStep acc p).1.height = acc.1.height ∧
    (∀ a b, ((decisionStep acc p).1.grid a b).walls = (acc.1.grid a b).walls) ∧
    (∀ a b, ((decisionStep acc p).1.grid a b).visited = (acc.1.grid a b).visited) := by
  unfold decisionStep
  by_cases h1 : 3 ≤ (acc.1.grid p.1 p.2).opening_count
  · rw [if_pos h1]
    by_cases h2 : acc.2.2.chance30.1 = true
    · rw [if_pos h2]
      exact ⟨rfl, rfl, fun a b => Maze.walls_markDecision .., fun a b => Maze.visited_markDecision ..⟩
    · rw [if_neg h2]
      exact ⟨rfl, rfl, fun a b => rfl, fun a b => rfl⟩
  · rw [if_neg h1]
    exact ⟨rfl, rfl, fun a b => rfl, fun a b => rfl⟩

lemma foldl_decisionStep_pres (l : List (Int × Int)) :
    ∀ (acc : Maze × List (Int × Int) × Rng),
      (l.foldl decisionStep acc).1.width = acc.1.width ∧
      (l.foldl decisionStep acc).1.height = acc.1.height ∧
      (∀ a b, ((l.foldl decisionStep acc).1.grid a b).walls = (acc.1.grid a b).walls) ∧
      (∀ a b, ((l.foldl decisionStep acc).1.grid a b).visited = (acc.1.grid a b).visited) := by
  induction l with
  | nil =>
    intro acc
    exact ⟨rfl, rfl, fun a b => rfl, fun a b => rfl⟩
  | cons p t ih =>
    intro acc
    rw [List.foldl_cons]
    obtain ⟨w1, h1, ww1, vv1⟩ := decisionStep_pres acc p
    obtain ⟨w2, h2, ww2, vv2⟩ := ih (decisionStep acc p)
    refine ⟨w2.trans w1, h2.trans h1, ?_, ?_⟩
    · intro a b
      rw [ww2 a b, ww1 a b]
    · intro a b
      rw [vv2 a b, vv1 a b]

lemma foldl_markDecision_pres (l : List (Int × Int)) :
    ∀ (m : Maze),
      (l.foldl (fun mm p => mm.markDecision p.1 p.2) m).width = m.width ∧
      (l.foldl (fun mm p => mm.markDecision p.1 p.2) m).height = m.height ∧
      (∀ a b, ((l.foldl (fun mm p => mm.markDecision p.1 p.2) m).grid a b).walls =
        (m.grid a b).walls) ∧
      (∀ a b, ((l.foldl (fun mm p => mm.markDecision p.1 p.2) m).grid a b).visited =
        (m.grid a b).visited) := by
  induction l with
  | nil =>
    intro m
    exact ⟨rfl, rfl, fun a b => rfl, fun a b => rfl⟩
  | cons p t ih =>
    intro m
    rw [List.foldl_cons]
    obtain ⟨w2, h2, ww2, vv2⟩ := ih (m.markDecision p.1 p.2)
    refine ⟨w2, h2, ?_, ?_⟩
    · intro a b
      rw [ww2 a b, Maze.walls_markDecision]
    · intro a b
      rw [vv2 a b, Maze.visited_markDecision]

lemma fillPass_pres (m : Maze) (dns : List (Int × Int)) (rng : Rng) :
    (fillPass m dns rng).1.width = m.width ∧
    (fillPass m dns rng).1.height = m.height ∧
    (∀ a b, (((fillPass m dns rng).1).grid a b).walls = (m.grid a b).walls) ∧
    (∀ a b, (((fillPass m dns rng).1).grid a b).visited = (m.grid a b).visited) := by
  unfold fillPass
  by_cases h : dns.length < 5
  · rw [if_pos h]
    exact foldl_markDecision_pres _ m
  · rw [if_neg h]
    exact ⟨rfl, rfl, fun a b => rfl, fun a b => rfl⟩

/-- The generated maze has the same walls, visited flags and size as the
maze left behind by the carving loop. -/
lemma generateMazeWith_pres (w h seed : Nat) (rng : Rng) :
    (generateMazeWith w h seed rng).width = (dfsLoop (genStart w h seed rng)).maze.width ∧
    (generateMazeWith w h seed rng).height = (dfsLoop (genStart w h seed rng)).maze.height ∧
    (∀ a b, ((generateMazeWith w h seed rng).grid a b).walls =
      ((dfsLoop (genStart w h seed rng)).maze.grid a b).walls) ∧
    (∀ a b, ((generateMazeWith w h seed rng).grid a b).visited =
      ((dfsLoop (genStart w h seed rng)).maze.grid a b).visited) := by
  have hM : generateMazeWith w h seed rng =
      { (fillPass (decisionPass (dfsLoop (genStart w h seed rng)).maze
          (dfsLoop (genStart w h seed rng)).rng).1
          (decisionPass (dfsLoop (genStart w h seed rng)).maze
            (dfsLoop (genStart w h seed rng)).rng).2.1
          (decisionPass (dfsLoop (genStart w h seed rng)).maze
            (dfsLoop (genStart w h seed rng)).rng).2.2).1 with start_pos := (0, 0) } := rfl
  obtain ⟨fw, fh, fww, fvv⟩ := fillPass_pres (decisionPass (dfsLoop (genStart w h seed rng)).maze
    (dfsLoop (genStart w h seed rng)).rng).1
    (decisionPass (dfsLoop (genStart w h seed rng)).maze
      (dfsLoop (genStart w h seed rng)).rng).2.1
    (decisionPass (dfsLoop (genStart w h seed rng)).maze
      (dfsLoop (genStart w h seed rng)).rng).2.2
  obtain ⟨dw, dh, dww, dvv⟩ := foldl_decisionStep_pres
    (coordsList (dfsLoop (genStart w h seed rng)).maze.width
      (dfsLoop (genStart w h seed rng)).maze.height)
    ((dfsLoop (genStart w h seed rng)).maze, [], (dfsLoop (genStart w h seed rng)).rng)
  rw [hM]
  refine ⟨?_, ?_, ?_, ?_⟩
  · show (fillPass _ _ _).1.width = _
    rw [fw]
    exact dw
  · show (fillPass _ _ _).1.height = _
    rw [fh]
    exact dh
  · intro a b
    show ((fillPass _ _ _).1.grid a b).walls = _
    rw [fww a b]
    exact dww a b
  · intro a b
    show ((fillPass _ _ _).1.grid a b).visited = _
    rw [fvv a b]
    exact dvv a b

lemma cellFinset_eq_of_dims {m m' : Maze} (hW : m'.width = m.width)
    (hH : m'.height = m.height) : m'.cellFinset = m.cellFinset := by
  unfold Maze.cellFinset
  rw [hW, hH]

lemma inBounds_iff_of_dims {m m' : Maze} (hW : m'.width = m.width)
    (hH : m'.height = m.height) (x y : Int) : m'.inBounds x y ↔ m.inBounds x y := by
  unfold Maze.inBounds
  rw [hW, hH]

lemma reach_iff_of_walls_eq {m m' : Maze}
    (hww : ∀ a b, (m'.grid a b).walls = (m.grid a b).walls) (p q : Int × Int) :
    m'.Reach p q ↔ m.Reach p q := by
  constructor
  · exact reach_mono (fun a b e hf => by rw [← hww a b]; exact hf)
  · exact reach_mono (fun a b e hf => by rw [hww a b]; exact hf)

/-- Spanning-tree property of the generated maze, for every PRNG stream. -/
lemma generateMazeWith_spanning (w h seed : Nat) (rng : Rng) (hw : 1 ≤ w) (hh : 1 ≤ h) :
    (∀ x y, (generateMazeWith w h seed rng).inBounds x y →
      (generateMazeWith w h seed rng).Reach (0, 0) (x, y)) ∧
    (generateMazeWith w h seed rng).removedWallCount = w * h - 1 ∧
    Maze.wallsSymmetric (generateMazeWith w h seed rng) := by
  obtain ⟨hW, hH, hreach, hcount, hsym, hoob⟩ := carving_spec w h seed rng hw hh
  obtain ⟨pW, pH, pww, pvv⟩ := generateMazeWith_pres w h seed rng
  refine ⟨?_, ?_, ?_⟩
  · intro x y hb
    rw [reach_iff_of_walls_eq pww]
    exact hreach x y ((inBounds_iff_of_dims pW pH x y).1 hb)
  · rw [← hcount]
    apply removedWallCount_congr
    · exact cellFinset_eq_of_dims pW pH
    · intro p e _ _
      rw [pww p.1 p.2]
  · intro x y d hb hopen
    rw [pww x y] at hopen
    have hres := hsym x y d ((inBounds_iff_of_dims pW pH x y).1 hb) hopen
    refine ⟨(inBounds_iff_of_dims pW pH _ _).2 hres.1, ?_⟩
    rw [pww]
    exact hres.2

/-! ### Counting decision nodes (for the at-least-5 guarantee) -/

lemma Cell.opening_count_eq_of_walls_eq {c c' : Cell} (h : c'.walls = c.walls) :
    c'.opening_count = c.opening_count := by
  unfold Cell.opening_count Cell.open_directions
  rw [h]

lemma Maze.decisionCount_markDecision (m : Maze) (x y : Int)
    (hb : m.inBounds x y) (hv : (m.grid x y).decision_node = false) :
    (m.markDecision x y).decisionCount = m.decisionCount + 1 := by
  unfold Maze.decisionCount
  have hcf : (m.markDecision x y).cellFinset = m.cellFinset := rfl
  rw [hcf]
  apply card_filter_flip _ _ _ (x, y)
  · exact mem_cellFinset.2 hb
  · simp [hv]
  · rw [Maze.decision_markDecision]
    simp
  · intro p hp hne
    rw [Maze.decision_markDecision]
    have hne2 : ¬(p.1 = x ∧ p.2 = y) := by
      rintro ⟨h1, h2⟩
      apply hne
      obtain ⟨a, b⟩ := p
      simp only at h1 h2
      rw [h1, h2]
    simp [hne2]

lemma ge2OpenCount_congr (m' m : Maze) (hS : m'.cellFinset = m.cellFinset)
    (hww : ∀ a b, (m'.grid a b).walls = (m.grid a b).walls) :
    m'.ge2OpenCount = m.ge2OpenCount := by
  unfold Maze.ge2OpenCount
  rw [hS]
  congr 1
  apply Finset.filter_congr
  intro p _
  rw [Cell.opening_count_eq_of_walls_eq (hww p.1 p.2)]

lemma decisionCount_eq_length (m : Maze) (dns : List (Int × Int))
    (hiff : ∀ p, ((m.grid p.1 p.2).decision_node = true ↔ p ∈ dns))
    (hnd : dns.Nodup) (hbound : ∀ p ∈ dns, m.inBounds p.1 p.2) :
    m.decisionCount = dns.length := by
  unfold Maze.decisionCount
  have hset : m.cellFinset.filter (fun p => (m.grid p.1 p.2).decision_node = true) =
      dns.toFinset := by
    ext p
    rw [Finset.mem_filter, List.mem_toFinset]
    constructor
    · rintro ⟨-, hd⟩
      exact (hiff p).1 hd
    · intro hm
      exact ⟨mem_cellFinset.2 (hbound p hm), (hiff p).2 hm⟩
  rw [hset, List.toFinset_card_of_nodup hnd]

lemma pair_eq_iff {p q : Int × Int} : p = q ↔ p.1 = q.1 ∧ p.2 = q.2 := by
  obtain ⟨a, b⟩ := p
  obtain ⟨c, d⟩ := q
  simp

/-- Invariant of the first decision-node pass: the recorded list matches the
marked cells, stays duplicate-free, and every recorded cell is an in-bounds
cell with at least three open sides. -/
lemma foldl_decisionStep_spec (l : List (Int × Int)) :
    ∀ (m : Maze) (dns : List (Int × Int)) (rng : Rng),
      l.Nodup →
      (∀ p ∈ l, m.inBounds p.1 p.2) →
      (∀ p ∈ l, p ∉ dns) →
      (∀ p, ((m.grid p.1 p.2).decision_node = true ↔ p ∈ dns)) →
      dns.Nodup →
      (∀ p ∈ dns, m.inBounds p.1 p.2 ∧ 3 ≤ (m.grid p.1 p.2).opening_count) →
      (∀ p, (((l.foldl decisionStep (m, dns, rng)).1.grid p.1 p.2).decision_node = true ↔
        p ∈ (l.foldl decisionStep (m, dns, rng)).2.1)) ∧
      (l.foldl decisionStep (m, dns, rng)).2.1.Nodup ∧
      (∀ p ∈ (l.foldl decisionStep (m, dns, rng)).2.1,
        (l.foldl decisionStep (m, dns, rng)).1.inBounds p.1 p.2 ∧
        3 ≤ ((l.foldl decisionStep (m, dns, rng)).1.grid p.1 p.2).opening_count) := by
  induction l with
  | nil =>
    intro m dns rng _ _ _ hiff hnd hmem
    exact ⟨hiff, hnd, hmem⟩
  | cons p t ih =>
    intro m dns rng hnodup hbound hfresh hiff hnd hmem
    rw [List.foldl_cons]
    have hspt : p ∉ t := (List.nodup_cons.1 hnodup).1
    have hntl : t.Nodup := (List.nodup_cons.1 hnodup).2
    by_cases h1 : 3 ≤ (m.grid p.1 p.2).opening_count
    · by_cases h2 : (rng.chance30).1 = true
      · have hstep : decisionStep (m, dns, rng) p =
            (m.markDecision p.1 p.2, dns ++ [p], (rng.chance30).2) := by
          unfold decisionStep
          rw [if_pos h1, if_pos h2]
        rw [hstep]
        apply ih
        · exact hntl
        · intro q hq
          exact hbound q (List.mem_cons_of_mem _ hq)
        · intro q hq
          rw [List.mem_append, List.mem_singleton]
          rintro (hin | rfl)
          · exact hfresh q (List.mem_cons_of_mem _ hq) hin
          · exact hspt hq
        · intro q
          rw [Maze.decision_markDecision, List.mem_append, List.mem_singleton]
          by_cases hc : q.1 = p.1 ∧ q.2 = p.2
          · rw [if_pos hc]
            have hqp : q = p := pair_eq_iff.2 hc
            simp [hqp]
          · rw [if_neg hc]
            have hqp : ¬q = p := fun he => hc (pair_eq_iff.1 he)
            rw [hiff q]
            simp [hqp]
        · rw [List.nodup_append]
          refine ⟨hnd, List.nodup_singleton p, ?_⟩
          intro a ha hap
          rw [List.mem_singleton] at hap
          subst hap
          exact hfresh a (List.mem_cons_self _ _) ha
        · intro q hq
          rw [List.mem_append, List.mem_singleton] at hq
          have hwq : ((m.markDecision p.1 p.2).grid q.1 q.2).walls = (m.grid q.1 q.2).walls :=
            Maze.walls_markDecision ..
          rcases hq with hin | rfl
          · refine ⟨(hmem q hin).1, ?_⟩
            rw [Cell.opening_count_eq_of_walls_eq hwq]
            exact (hmem q hin).2
          · refine ⟨hbound q (List.mem_cons_self _ _), ?_⟩
            rw [Cell.opening_count_eq_of_walls_eq hwq]
            exact h1
      · have hstep : decisionStep (m, dns, rng) p = (m, dns, (rng.chance30).2) := by
          unfold decisionStep
          rw [if_pos h1, if_neg h2]
        rw [hstep]
        apply ih _ _ _ hntl
        · intro q hq
          exact hbound q (List.mem_cons_of_mem _ hq)
        · intro q hq
          exact hfresh q (List.mem_cons_of_mem _ hq)
        · exact hiff
        · exact hnd
        · exact hmem
    · have hstep : decisionStep (m, dns, rng) p = (m, dns, rng) := by
        unfold decisionStep
        rw [if_neg h1]
      rw [hstep]
      apply ih _ _ _ hntl
      · intro q hq
        exact hbound q (List.mem_cons_of_mem _ hq)
      · intro q hq
        exact hfresh q (List.mem_cons_of_mem _ hq)
      · exact hiff
      · exact hnd
      · exact hmem

lemma foldl_markDecision_count (T : List (Int × Int)) :
    ∀ (m : Maze), T.Nodup → (∀ p ∈ T, m.inBounds p.1 p.2) →
      (∀ p ∈ T, (m.grid p.1 p.2).decision_node = false) →
      (T.foldl (fun mm q => mm.markDecision q.1 q.2) m).decisionCount =
        m.decisionCount + T.length := by
  induction T with
  | nil =>
    intro m _ _ _
    simp
  | cons p t ih =>
    intro m hnd hb hunm
    rw [List.foldl_cons]
    have h1 : (m.markDecision p.1 p.2).decisionCount = m.decisionCount + 1 :=
      m.decisionCount_markDecision p.1 p.2 (hb p (List.mem_cons_self _ _))
        (hunm p (List.mem_cons_self _ _))
    have hspt : p ∉ t := (List.nodup_cons.1 hnd).1
    rw [ih (m.markDecision p.1 p.2) (List.nodup_cons.1 hnd).2
      (fun q hq => hb q (List.mem_cons_of_mem _ hq))
      (fun q hq => by
        rw [Maze.decision_markDecision]
        have hqp : ¬(q.1 = p.1 ∧ q.2 = p.2) := by
          intro hc
          exact hspt (pair_eq_iff.2 hc ▸ hq)
        rw [if_neg hqp]
        exact hunm q (List.mem_cons_of_mem _ hq)), h1]
    simp only [List.length_cons]
    omega

/-- The deficit-filling pass brings the number of decision nodes up to at
least `min 5 (number of cells with two or more open sides)`. -/
lemma fill_lower (m3 : Maze) (dns : List (Int × Int)) (rng3 : Rng)
    (hiff3 : ∀ p, ((m3.grid p.1 p.2).decision_node = true ↔ p ∈ dns))
    (hnd3 : dns.Nodup)
    (hmem3 : ∀ p ∈ dns, m3.inBounds p.1 p.2 ∧ 3 ≤ (m3.grid p.1 p.2).opening_count) :
    min 5 m3.ge2OpenCount ≤ (fillPass m3 dns rng3).1.decisionCount := by
  have hLcount : m3.decisionCount = dns.length :=
    decisionCount_eq_length m3 dns hiff3 hnd3 (fun p hp => (hmem3 p hp).1)
  by_cases hL : dns.length < 5
  · have hfp1 : (fillPass m3 dns rng3).1 =
        ((shuffle ((coordsList m3.width m3.height).filter
            (fun p => decide (2 ≤ (m3.grid p.1 p.2).opening_count) &&
              !(m3.grid p.1 p.2).decision_node)) rng3).1.take (5 - dns.length)).foldl
          (fun mm p => mm.markDecision p.1 p.2) m3 := by
      unfold fillPass
      rw [if_pos hL]
    have hcnod : ((coordsList m3.width m3.height).filter
        (fun p => decide (2 ≤ (m3.grid p.1 p.2).opening_count) &&
          !(m3.grid p.1 p.2).decision_node)).Nodup :=
      (coordsList_nodup _ _).filter _
    have hcmem : ∀ p ∈ (coordsList m3.width m3.height).filter
        (fun p => decide (2 ≤ (m3.grid p.1 p.2).opening_count) &&
          !(m3.grid p.1 p.2).decision_node),
        m3.inBounds p.1 p.2 ∧ 2 ≤ (m3.grid p.1 p.2).opening_count ∧
        (m3.grid p.1 p.2).decision_node = false := by
      intro p hp
      rw [List.mem_filter] at hp
      obtain ⟨hp1, hp2⟩ := hp
      simp only [Bool.and_eq_true, decide_eq_true_eq, Bool.not_eq_eq_eq_not,
        Bool.not_true] at hp2
      exact ⟨mem_coordsList.1 hp1, hp2.1, hp2.2⟩
    have sper := shuffle_perm ((coordsList m3.width m3.height).filter
        (fun p => decide (2 ≤ (m3.grid p.1 p.2).opening_count) &&
          !(m3.grid p.1 p.2).decision_node)) rng3
    have hTnod := List.Nodup.sublist (List.take_sublist (5 - dns.length) _)
      (sper.nodup_iff.2 hcnod)
    have hTsub : ∀ p ∈ (shuffle ((coordsList m3.width m3.height).filter
        (fun p => decide (2 ≤ (m3.grid p.1 p.2).opening_count) &&
          !(m3.grid p.1 p.2).decision_node)) rng3).1.take (5 - dns.length),
        p ∈ (coordsList m3.width m3.height).filter
          (fun p => decide (2 ≤ (m3.grid p.1 p.2).opening_count) &&
            !(m3.grid p.1 p.2).decision_node) := by
      intro p hp
      exact sper.mem_iff.1 (List.take_subset _ _ hp)
    have hcount := foldl_markDecision_count
      ((shuffle ((coordsList m3.width m3.height).filter
        (fun p => decide (2 ≤ (m3.grid p.1 p.2).opening_count) &&
          !(m3.grid p.1 p.2).decision_node)) rng3).1.take (5 - dns.length)) m3 hTnod
      (fun p hp => (hcmem p (hTsub p hp)).1)
      (fun p hp => (hcmem p (hTsub p hp)).2.2)
    have hTlen : ((shuffle ((coordsList m3.width m3.height).filter
        (fun p => decide (2 ≤ (m3.grid p.1 p.2).opening_count) &&
          !(m3.grid p.1 p.2).decision_node)) rng3).1.take (5 - dns.length)).length =
        min (5 - dns.length) ((coordsList m3.width m3.height).filter
          (fun p => decide (2 ≤ (m3.grid p.1 p.2).opening_count) &&
            !(m3.grid p.1 p.2).decision_node)).length := by
      rw [List.length_take, sper.length_eq]
    -- relate candidate count to the two cell counts
    have hfilt : ((coordsList m3.width m3.height).filter
        (fun p => decide (2 ≤ (m3.grid p.1 p.2).opening_count) &&
          !(m3.grid p.1 p.2).decision_node)).toFinset =
        (m3.cellFinset.filter (fun p => 2 ≤ (m3.grid p.1 p.2).opening_count)).filter
          (fun p => ¬(m3.grid p.1 p.2).decision_node = true) := by
      rw [List.toFinset_filter, Finset.filter_filter]
      apply Finset.filter_congr
      intro p _
      simp
    have hclen : ((coordsList m3.width m3.height).filter
        (fun p => decide (2 ≤ (m3.grid p.1 p.2).opening_count) &&
          !(m3.grid p.1 p.2).decision_node)).length =
        ((m3.cellFinset.filter (fun p => 2 ≤ (m3.grid p.1 p.2).opening_count)).filter
          (fun p => ¬(m3.grid p.1 p.2).decision_node = true)).card := by
      rw [← hfilt, List.toFinset_card_of_nodup hcnod]
    have hsplit := Finset.filter_card_add_filter_neg_card_eq_card
      (s := m3.cellFinset.filter (fun p => 2 ≤ (m3.grid p.1 p.2).opening_count))
      (p := fun p => (m3.grid p.1 p.2).decision_node = true)
    have hAB : (m3.cellFinset.filter
        (fun p => 2 ≤ (m3.grid p.1 p.2).opening_count)).filter
          (fun p => (m3.grid p.1 p.2).decision_node = true) =
        m3.cellFinset.filter (fun p => (m3.grid p.1 p.2).decision_node = true) := by
      rw [Finset.filter_filter]
      apply Finset.filter_congr
      intro p hp
      constructor
      · rintro ⟨-, hd⟩
        exact hd
      · intro hd
        refine ⟨?_, hd⟩
        have h3 := (hmem3 p ((hiff3 p).1 hd)).2
        omega
    have hdecS : (m3.cellFinset.filter
        (fun p => (m3.grid p.1 p.2).decision_node = true)).card = dns.length := by
      rw [← hLcount]
      rfl
    rw [hfp1, hcount, hTlen, hLcount]
    rw [hAB, hdecS] at hsplit
    rw [hclen]
    have hG : m3.ge2OpenCount =
        (m3.cellFinset.filter (fun p => 2 ≤ (m3.grid p.1 p.2).opening_count)).card := rfl
    rw [hG] at *
    rw [Nat.min_def, Nat.min_def]
    split_ifs <;> omega
  · have hfp1 : (fillPass m3 dns rng3).1 = m3 := by
      unfold fillPass
      rw [if_neg hL]
    rw [hfp1, hLcount]
    have hmin := Nat.min_le_left 5 m3.ge2OpenCount
    omega

/-- After generation, at least `min 5 (number of cells with two or more open
sides)` cells are decision nodes, for every PRNG stream. -/
lemma generateMazeWith_decision_lower (w h seed : Nat) (rng : Rng) :
    min 5 (generateMazeWith w h seed rng).ge2OpenCount ≤
      (generateMazeWith w h seed rng).decisionCount := by
  have hm2dec : ∀ a b,
      (((dfsLoop (genStart w h seed rng)).maze).grid a b).decision_node = false := by
    intro a b
    rw [dfsLoop_decision]
    have hmz : (genStart w h seed rng).maze =
        ({ width := w, height := h, seed := seed,
           grid := fun x y => Cell.init x y, start_pos := (0, 0) } : Maze).markVisited 0 0 := rfl
    rw [hmz, Maze.decision_markVisited]
    rfl
  obtain ⟨hiff3, hnd3, hmem3⟩ := foldl_decisionStep_spec
    (coordsList (dfsLoop (genStart w h seed rng)).maze.width
      (dfsLoop (genStart w h seed rng)).maze.height)
    (dfsLoop (genStart w h seed rng)).maze [] (dfsLoop (genStart w h seed rng)).rng
    (coordsList_nodup _ _)
    (fun p hp => mem_coordsList.1 hp)
    (fun p _ => List.not_mem_nil p)
    (fun p => by simp [hm2dec p.1 p.2])
    List.nodup_nil
    (fun p hp => absurd hp (List.not_mem_nil p))
  have hfill := fill_lower
    (decisionPass (dfsLoop (genStart w h seed rng)).maze (dfsLoop (genStart w h seed rng)).rng).1
    (decisionPass (dfsLoop (genStart w h seed rng)).maze
      (dfsLoop (genStart w h seed rng)).rng).2.1
    (decisionPass (dfsLoop (genStart w h seed rng)).maze
      (dfsLoop (genStart w h seed rng)).rng).2.2
    hiff3 hnd3 hmem3
  obtain ⟨fpW, fpH, fpww, -⟩ := fillPass_pres
    (decisionPass (dfsLoop (genStart w h seed rng)).maze (dfsLoop (genStart w h seed rng)).rng).1
    (decisionPass (dfsLoop (genStart w h seed rng)).maze
      (dfsLoop (genStart w h seed rng)).rng).2.1
    (decisionPass (dfsLoop (genStart w h seed rng)).maze
      (dfsLoop (genStart w h seed rng)).rng).2.2
  have hMdec : (generateMazeWith w h seed rng).decisionCount =
      ((fillPass
        (decisionPass (dfsLoop (genStart w h seed rng)).maze
          (dfsLoop (genStart w h seed rng)).rng).1
        (decisionPass (dfsLoop (genStart w h seed rng)).maze
          (dfsLoop (genStart w h seed rng)).rng).2.1
        (decisionPass (dfsLoop (genStart w h seed rng)).maze
          (dfsLoop (genStart w h seed rng)).rng).2.2).1).decisionCount := rfl
  have hMge2 : (generateMazeWith w h seed rng).ge2OpenCount =
      ((decisionPass (dfsLoop (genStart w h seed rng)).maze
        (dfsLoop (genStart w h seed rng)).rng).1).ge2OpenCount := by
    apply ge2OpenCount_congr
    · exact cellFinset_eq_of_dims fpW fpH
    · intro a b
      exact fpww a b
  rw [hMdec, hMge2]
  exact hfill

/-! ### Concrete evaluations of tiny generated mazes -/

lemma generate11 : generate_maze 1 1 0 =
    { (genStart 1 1 0 (pythonSeed 0)).maze with start_pos := (0, 0) } := by
  have h0 : (genStart 1 1 0 (pythonSeed 0)).maze.unvisitedNeighborDirs 0 0 = [] := by decide
  have h1 : dfsLoop (genStart 1 1 0 (pythonSeed 0)) =
      ⟨(genStart 1 1 0 (pythonSeed 0)).maze, [], pythonSeed 0⟩ := by
    rw [show genStart 1 1 0 (pythonSeed 0) =
      ⟨(genStart 1 1 0 (pythonSeed 0)).maze, [((0 : Int), (0 : Int))], pythonSeed 0⟩ from rfl]
    rw [dfsLoop_cons_pop _ _ 0 0 [] h0]
    exact dfsLoop_nil _ rfl
  have h2 : generate_maze 1 1 0 =
      { (fillPass
          (decisionPass (dfsLoop (genStart 1 1 0 (pythonSeed 0))).maze
            (dfsLoop (genStart 1 1 0 (pythonSeed 0))).rng).1
          (decisionPass (dfsLoop (genStart 1 1 0 (pythonSeed 0))).maze
            (dfsLoop (genStart 1 1 0 (pythonSeed 0))).rng).2.1
          (decisionPass (dfsLoop (genStart 1 1 0 (pythonSeed 0))).maze
            (dfsLoop (genStart 1 1 0 (pythonSeed 0))).rng).2.2).1
        with start_pos := (0, 0) } := rfl
  rw [h2, h1]
  rfl

lemma generate21 : generate_maze 2 1 0 =
    { carve (genStart 2 1 0 (pythonSeed 0)).maze 0 0 Direction.east with start_pos := (0, 0) } := by
  have hu0 : ¬((genStart 2 1 0 (pythonSeed 0)).maze.unvisitedNeighborDirs 0 0 = []) := by decide
  have hd : ((genStart 2 1 0 (pythonSeed 0)).maze.unvisitedNeighborDirs 0 0).getD
      ((pythonSeed 0).randBelow
        ((genStart 2 1 0 (pythonSeed 0)).maze.unvisitedNeighborDirs 0 0).length).1
      Direction.north = Direction.east := by decide
  have hb : (carve (genStart 2 1 0 (pythonSeed 0)).maze 0 0
      Direction.east).unvisitedNeighborDirs (0 + (dirDelta Direction.east).1)
      (0 + (dirDelta Direction.east).2) = [] := by decide
  have hc : (carve (genStart 2 1 0 (pythonSeed 0)).maze 0 0
      Direction.east).unvisitedNeighborDirs 0 0 = [] := by decide
  have h1 : dfsLoop (genStart 2 1 0 (pythonSeed 0)) =
      ⟨carve (genStart 2 1 0 (pythonSeed 0)).maze 0 0 Direction.east, [],
        ((pythonSeed 0).randBelow
          ((genStart 2 1 0 (pythonSeed 0)).maze.unvisitedNeighborDirs 0 0).length).2⟩ := by
    rw [show genStart 2 1 0 (pythonSeed 0) =
      ⟨(genStart 2 1 0 (pythonSeed 0)).maze, [((0 : Int), (0 : Int))], pythonSeed 0⟩ from rfl]
    rw [dfsLoop_cons_push _ _ 0 0 [] hu0]
    rw [hd]
    rw [dfsLoop_cons_pop _ _ _ _ _ hb]
    rw [dfsLoop_cons_pop _ _ 0 0 _ hc]
    exact dfsLoop_nil _ rfl
  have h2 : generate_maze 2 1 0 =
      { (fillPass
          (decisionPass (dfsLoop (genStart 2 1 0 (pythonSeed 0))).maze
            (dfsLoop (genStart 2 1 0 (pythonSeed 0))).rng).1
          (decisionPass (dfsLoop (genStart 2 1 0 (pythonSeed 0))).maze
            (dfsLoop (genStart 2 1 0 (pythonSeed 0))).rng).2.1
          (decisionPass (dfsLoop (genStart 2 1 0 (pythonSeed 0))).maze
            (dfsLoop (genStart 2 1 0 (pythonSeed 0))).rng).2.2).1
        with start_pos := (0, 0) } := rfl
  rw [h2, h1]
  rfl

/-! ### Data models (`models.py`) -/

/-- `ValueDimensions`: the five-axis signed value vector. -/
structure ValueDimensions where
  empathy : Int
  integrity : Int
  courage : Int
  responsibility : Int
  independence : Int
deriving DecidableEq, Repr

/-- The default (all-zero) value vector. -/
def ValueDimensions.zero : ValueDimensions := ⟨0, 0, 0, 0, 0⟩

/-- `ValueDimensions.add_delta`. -/
def ValueDimensions.add_delta (v delta : ValueDimensions) : ValueDimensions :=
  ⟨v.empathy + delta.empathy, v.integrity + delta.integrity, v.courage + delta.courage,
    v.responsibility + delta.responsibility, v.independence + delta.independence⟩

/-- `Question` (the `tags` field is `Optional` in the source). -/
structure Question where
  id : String
  prompt : String
  options : List String
  difficulty : ℚ
  tags : Option (List String)
deriving DecidableEq, Repr

/-- `Answer`. -/
structure Answer where
  choice_id : Option Int
  free_text : Option String
deriving DecidableEq, Repr

/-- `Answer.is_empty`: `self.choice_id is None and not self.free_text`
(`not` treats both `None` and the empty string as empty). -/
def Answer.is_empty (a : Answer) : Bool :=
  a.choice_id.isNone && (match a.free_text with
    | none => true
    | some s => decide (s = ""))

/-- `Review`. -/
structure Review where
  growth_delta : Int
  match_score : ℚ
  feedback : String
deriving DecidableEq, Repr

/-- `DecisionRecord`. -/
structure DecisionRecord where
  question : Question
  answer : Answer
  review : Review
  age_at_decision : Int
  stage_at_decision : String
deriving DecidableEq, Repr

/-- `GrowthRecord` (`perspectives` is a string-keyed dict, modelled as an
association list in insertion order). -/
structure GrowthRecord where
  question_id : String
  prompt : String
  age : Int
  stage : String
  value_delta : ValueDimensions
  perspectives : List (String × String)
  notes : Option String
deriving DecidableEq, Repr

/-- A placed trap (the `dict` stored in `state.traps`). -/
structure Trap where
  type : String
  x : Int
  y : Int
  placed_at : ℚ
  reveal_at : ℚ
  expires_at : ℚ
deriving DecidableEq, Repr

/-! ### Life-stage rules (`rules.py`) -/

/-- `compute_stage_by_age`: first matching range of `STAGE_RANGES` (iterated
in insertion order), defaulting to `"senior"`. -/
def compute_stage_by_age (age : Int) : String :=
  if 0 ≤ age ∧ age ≤ 9 then "child"
  else if 10 ≤ age ∧ age ≤ 12 then "preteen"
  else if 13 ≤ age ∧ age ≤ 17 then "teen"
  else if 18 ≤ age ∧ age ≤ 24 then "young_adult"
  else if 25 ≤ age ∧ age ≤ 39 then "adult"
  else if 40 ≤ age ∧ age ≤ 59 then "mature"
  else if 60 ≤ age ∧ age ≤ 120 then "senior"
  else "senior"

/-! ### The session state aggregate (`state.py`)

The source accesses many of these fields through `getattr`/`hasattr` with a
default because old snapshots may lack them; the embedding gives
`GameState` every field up front, so those defaulting branches are absorbed
into construction and the `hasattr` guards of the `_sync_*` helpers become
no-ops. -/

structure GameState where
  age : Int
  stage : String
  history : List DecisionRecord
  seed : Int
  total_growth : Int
  hero_health : Int
  value_dimensions : ValueDimensions
  growth_history : List GrowthRecord
  jump_charges : Int
  jump_bonus_awarded : Int
  ally_jump_charges : Int
  ally_last_jump_bonus_ts : Option ℚ
  ally_freeze_charges : Int
  ally_freeze_initial_bonus_awarded : Bool
  ally_freeze_last_bonus_ts : Option ℚ
  ally_expand_charges : Int
  ally_expand_initial_bonus_awarded : Bool
  ally_expand_last_bonus_ts : Option ℚ
  ally_lift_charges : Int
  ally_lift_initial_bonus_awarded : Bool
  ally_lift_last_bonus_ts : Option ℚ
  ally_blink_charges : Int
  ally_blink_last_bonus_ts : Option ℚ
  ally_position : Option (Int × Int)
  ally_trap_charges : Int
  ally_trap_last_bonus_ts : Option ℚ
  traps : List Trap
  hero_escape_charges : Int
  hero_escape_last_age : Int
  active_decisions : Finset (Int × Int)
  shield_charges : Int
  shield_last_age : Int
  shield_active_until : Option ℚ
  ally_dissolve_charges : Int
  ally_dissolve_last_bonus_ts : Option ℚ
  ally_dissolve_max_charges : Int
  dissolved_nodes : List ((Int × Int) × ℚ)
  current_position : Int × Int
  visited_nodes : Finset (Int × Int)
deriving DecidableEq

/-- `GameState()` built fresh (the `else` branch of `__init__`, with the
`None` timestamps immediately replaced by `time.time()` as in the source,
and the controller-managed fields at the defaults the `_sync_*` helpers
install on first touch). -/
def GameState.fresh (now : ℚ) : GameState where
  age := 10
  stage := "preteen"
  history := []
  seed := 0
  total_growth := 0
  hero_health := 100
  value_dimensions := ValueDimensions.zero
  growth_history := []
  jump_charges := 2
  jump_bonus_awarded := 0
  ally_jump_charges := 2
  ally_last_jump_bonus_ts := some now
  ally_freeze_charges := 0
  ally_freeze_initial_bonus_awarded := false
  ally_freeze_last_bonus_ts := some now
  ally_expand_charges := 0
  ally_expand_initial_bonus_awarded := false
  ally_expand_last_bonus_ts := some now
  ally_lift_charges := 0
  ally_lift_initial_bonus_awarded := false
  ally_lift_last_bonus_ts := some now
  ally_blink_charges := 1
  ally_blink_last_bonus_ts := some now
  ally_position := none
  ally_trap_charges := 1
  ally_trap_last_bonus_ts := some now
  traps := []
  hero_escape_charges := 0
  hero_escape_last_age := 0
  active_decisions := ∅
  shield_charges := 1
  shield_last_age := 0
  shield_active_until := none
  ally_dissolve_charges := 1
  ally_dissolve_last_bonus_ts := some now
  ally_dissolve_max_charges := 2
  dissolved_nodes := []
  current_position := (0, 0)
  visited_nodes := ∅

/-- `GameState.apply_growth`: age and cumulative growth advance, the age is
floored at 10, and the stage is recomputed. -/
def GameState.apply_growth (s : GameState) (delta : Int) : GameState :=
  let age1 := s.age + delta
  let age2 := if age1 < 10 then 10 else age1
  { s with
    age := age2
    total_growth := s.total_growth + delta
    stage := compute_stage_by_age age2 }

/-- `GameState.apply_value_delta`. -/
def GameState.apply_value_delta (s : GameState) (delta : ValueDimensions) : GameState :=
  { s with value_dimensions := s.value_dimensions.add_delta delta }

/-- `GameState.append_decision`. -/
def GameState.append_decision (s : GameState) (record : DecisionRecord) : GameState :=
  { s with history := s.history ++ [record] }

/-- `GameState.append_growth_record`. -/
def GameState.append_growth_record (s : GameState) (record : GrowthRecord) : GameState :=
  { s with growth_history := s.growth_history ++ [record] }

/-- `GameState.is_goal_reached`. -/
def GameState.is_goal_reached (s : GameState) (goal_age : Int) : Bool :=
  decide (goal_age ≤ s.age)

/-- `GameState.get_history_tags`. -/
def GameState.get_history_tags (s : GameState) : List String :=
  s.history.flatMap (fun record => record.question.tags.getD [])

/-- `GameState.mark_node_visited`: returns the updated state and whether the
node was newly visited. -/
def GameState.mark_node_visited (s : GameState) (x y : Int) : GameState × Bool :=
  if (x, y) ∈ s.visited_nodes then (s, false)
  else ({ s with visited_nodes := insert (x, y) s.visited_nodes }, true)

/-! ### Time-gated charge regeneration (`controller.py`)

Timestamps are rationals; `int(elapsed // interval)` on the nonnegative
quantities guarded by `elapsed >= interval` is `⌊elapsed / interval⌋`. -/

/-- The common single-phase pattern shared by the ally-jump, blink, trap and
dissolve replenishers (and the steady phase of the two-phase ones):
`floor(elapsed / interval)` whole cycles are awarded at `gain` charges per
cycle, capped, and the timestamp advances by the consumed whole cycles. -/
def replenishTimeGated (cap : Int) (interval : ℚ) (gain : Int)
    (charges : Int) (last : ℚ) (now : ℚ) : Int × ℚ :=
  let elapsed := now - last
  if interval ≤ elapsed then
    let cycles : Int := ⌊elapsed / interval⌋
    (min cap (max 0 charges + cycles * gain), last + (cycles : ℚ) * interval)
  else (charges, last)

/-- `_replenish_ally_jump_charges` (cap 4, interval 15 s). -/
def replenish_ally_jump (charges : Int) (last_ts : Option ℚ) (now : ℚ) : Int × Option ℚ :=
  match last_ts with
  | none => (charges, some now)
  | some last =>
    let elapsed := now - last
    if (15 : ℚ) ≤ elapsed then
      let bonus : Int := ⌊elapsed / 15⌋
      (min 4 (max 0 charges + bonus), some (last + (bonus : ℚ) * 15))
    else (charges, some last)

/-- `_replenish_blink_charges` (cap 2, interval 20 s). -/
def replenish_blink (charges : Int) (last_ts : Option ℚ) (now : ℚ) : Int × Option ℚ :=
  match last_ts with
  | none => (charges, some now)
  | some last =>
    let elapsed := now - last
    if (20 : ℚ) ≤ elapsed then
      let gained : Int := ⌊elapsed / 20⌋
      (min 2 (max 0 charges + gained), some (last + (gained : ℚ) * 20))
    else (charges, some last)

/-- `_replenish_trap_charges` (cap 2, interval 20 s). -/
def replenish_trap (charges : Int) (last_ts : Option ℚ) (now : ℚ) : Int × Option ℚ :=
  match last_ts with
  | none => (charges, some now)
  | some last =>
    let elapsed := now - last
    if (20 : ℚ) ≤ elapsed then
      let gained : Int := ⌊elapsed / 20⌋
      (min 2 (max 0 charges + gained), some (last + (gained : ℚ) * 20))
    else (charges, some last)

/-- `_replenish_dissolve_charges` (configurable cap, interval 15 s). -/
def replenish_dissolve (cap : Int) (charges : Int) (last_ts : Option ℚ) (now : ℚ) :
    Int × Option ℚ :=
  match last_ts with
  | none => (charges, some now)
  | some last =>
    let elapsed := now - last
    if (15 : ℚ) ≤ elapsed then
      let gained : Int := ⌊elapsed / 15⌋
      (min cap (max 0 charges + gained), some (last + (gained : ℚ) * 15))
    else (charges, some last)

/-- `_replenish_freeze_charges`: one-shot +2 bonus after 10 s, then +1 per
30 s, cap 3.  Returns (charges, initial-bonus-granted flag, last tick). -/
def replenish_freeze (charges : Int) (granted : Bool) (last_ts : Option ℚ) (now : ℚ) :
    Int × Bool × Option ℚ :=
  match last_ts with
  | none => (charges, granted, some now)
  | some last =>
    if granted = false then
      if (10 : ℚ) ≤ now - last then (min 3 (max 0 charges + 2), true, some now)
      else (charges, false, some last)
    else
      let elapsed := now - last
      if (30 : ℚ) ≤ elapsed then
        let gained : Int := ⌊elapsed / 30⌋
        let charges2 := if 0 < gained then min 3 (max 0 charges + gained) else charges
        (charges2, true, some (last + (gained : ℚ) * 30))
      else (charges, true, some last)

/-- `_replenish_expand_charges`: one-shot +2 bonus after 10 s, then +2 per
20 s, cap 5. -/
def replenish_expand (charges : Int) (granted : Bool) (last_ts : Option ℚ) (now : ℚ) :
    Int × Bool × Option ℚ :=
  match last_ts with
  | none => (charges, granted, some now)
  | some last =>
    if granted = false then
      if (10 : ℚ) ≤ now - last then (min 5 (max 0 charges + 2), true, some now)
      else (charges, false, some last)
    else
      let elapsed := now - last
      if (20 : ℚ) ≤ elapsed then
        let cycles : Int := ⌊elapsed / 20⌋
        if 0 < cycles then
          (min 5 (max 0 charges + cycles * 2), true, some (last + (cycles : ℚ) * 20))
        else (charges, true, some last)
      else (charges, true, some last)

/-- `_replenish_lift_charges`: one-shot +1 bonus after 10 s, then +1 per
20 s, cap 2. -/
def replenish_lift (charges : Int) (granted : Bool) (last_ts : Option ℚ) (now : ℚ) :
    Int × Bool × Option ℚ :=
  match last_ts with
  | none => (charges, granted, some now)
  | some last =>
    if granted = false then
      if now - last < 10 then (charges, false, some last)
      else (min 2 (max 0 charges + 1), true, some now)
    else
      let elapsed := now - last
      if (20 : ℚ) ≤ elapsed then
        let gained : Int := ⌊elapsed / 20⌋
        if 0 < gained then
          (min 2 (max 0 charges + gained), true, some (last + (gained : ℚ) * 20))
        else (charges, true, some last)
      else (charges, true, some last)

/-- `_grant_escape_by_age`: +1 escape charge per crossed 10-year threshold. -/
def grant_escape_loop (charges : Int) (last_age : Int) (age : Int) : Int × Int :=
  if last_age + 10 ≤ age then grant_escape_loop (max 0 charges + 1) (last_age + 10) age
  else (charges, last_age)
termination_by (age - last_age).toNat
decreasing_by
  omega

/-- `_grant_shield_bonus_if_needed`: +1 shield charge per crossed 20-year
threshold, capped at 1. -/
def grant_shield_loop (charges : Int) (last_age : Int) (age : Int) : Int × Int :=
  if last_age + 20 ≤ age then
    grant_shield_loop (min 1 (max 0 charges + 1)) (last_age + 20) age
  else (charges, last_age)
termination_by (age - last_age).toNat
decreasing_by
  omega

/-! State-level wrappers of the regeneration passes. -/

def GameState.replenish_ally_jump_state (s : GameState) (now : ℚ) : GameState :=
  let r := replenish_ally_jump s.ally_jump_charges s.ally_last_jump_bonus_ts now
  { s with ally_jump_charges := r.1, ally_last_jump_bonus_ts := r.2 }

def GameState.replenish_freeze_state (s : GameState) (now : ℚ) : GameState :=
  let r := replenish_freeze s.ally_freeze_charges s.ally_freeze_initial_bonus_awarded
    s.ally_freeze_last_bonus_ts now
  { s with
    ally_freeze_charges := r.1
    ally_freeze_initial_bonus_awarded := r.2.1
    ally_freeze_last_bonus_ts := r.2.2 }

def GameState.replenish_expand_state (s : GameState) (now : ℚ) : GameState :=
  let r := replenish_expand s.ally_expand_charges s.ally_expand_initial_bonus_awarded
    s.ally_expand_last_bonus_ts now
  { s with
    ally_expand_charges := r.1
    ally_expand_initial_bonus_awarded := r.2.1
    ally_expand_last_bonus_ts := r.2.2 }

def GameState.replenish_lift_state (s : GameState) (now : ℚ) : GameState :=
  let r := replenish_lift s.ally_lift_charges s.ally_lift_initial_bonus_awarded
    s.ally_lift_last_bonus_ts now
  { s with
    ally_lift_charges := r.1
    ally_lift_initial_bonus_awarded := r.2.1
    ally_lift_last_bonus_ts := r.2.2 }

def GameState.replenish_dissolve_state (s : GameState) (now : ℚ) : GameState :=
  let r := replenish_dissolve s.ally_dissolve_max_charges s.ally_dissolve_charges
    s.ally_dissolve_last_bonus_ts now
  { s with ally_dissolve_charges := r.1, ally_dissolve_last_bonus_ts := r.2 }

def GameState.replenish_blink_state (s : GameState) (now : ℚ) : GameState :=
  let r := replenish_blink s.ally_blink_charges s.ally_blink_last_bonus_ts now
  { s with ally_blink_charges := r.1, ally_blink_last_bonus_ts := r.2 }

def GameState.replenish_trap_state (s : GameState) (now : ℚ) : GameState :=
  let r := replenish_trap s.ally_trap_charges s.ally_trap_last_bonus_ts now
  { s with ally_trap_charges := r.1, ally_trap_last_bonus_ts := r.2 }

def GameState.grant_escape_by_age (s : GameState) : GameState :=
  let r := grant_escape_loop s.hero_escape_charges s.hero_escape_last_age s.age
  { s with hero_escape_charges := r.1, hero_escape_last_age := r.2 }

def GameState.grant_shield_bonus (s : GameState) : GameState :=
  let r := grant_shield_loop s.shield_charges s.shield_last_age s.age
  { s with shield_charges := r.1, shield_last_age := r.2 }

/-- `_grant_jump_bonus_if_needed`: +1 hero jump charge per crossed 5-year
threshold since the configured start age (`//` is floor division). -/
def GameState.grant_jump_bonus (s : GameState) (start_age : Int) : GameState :=
  let expected := max 0 ((s.age - start_age).fdiv 5)
  let bonus_delta := expected - s.jump_bonus_awarded
  if 0 < bonus_delta then
    { s with jump_charges := max 0 s.jump_charges + bonus_delta, jump_bonus_awarded := expected }
  else s

/-- `_sync_shield_state`: force at least one charge, clear an expired
shield window, then run the age-gated grant. -/
def GameState.sync_shield_state (s : GameState) (now : ℚ) : GameState :=
  let s1 := { s with
    shield_charges := max 1 s.shield_charges
    shield_active_until := match s.shield_active_until with
      | some t => if t ≤ now then none else some t
      | none => none }
  s1.grant_shield_bonus

/-- `_expire_dissolved_nodes`: drop dissolved entries whose restore time has
passed and re-activate their coordinate when it is still inside the maze. -/
def GameState.expire_dissolved (s : GameState) (m : Maze) (now : ℚ) : GameState :=
  if s.dissolved_nodes = [] then s
  else
    let to_delete := s.dissolved_nodes.filter (fun kv => decide (kv.2 ≤ now))
    let dissolved2 := s.dissolved_nodes.filter (fun kv => !decide (kv.2 ≤ now))
    let active2 := to_delete.foldl
      (fun acc kv => if m.inBounds kv.1.1 kv.1.2 then insert kv.1 acc else acc)
      s.active_decisions
    { s with dissolved_nodes := dissolved2, active_decisions := active2 }

/-- `_expire_traps`: silently drop traps whose expiry has passed (a zero
`expires_at` is falsy in the source and never dropped). -/
def GameState.expire_traps (s : GameState) (now : ℚ) : GameState :=
  { s with traps := s.traps.filter (fun t => !(decide (t.expires_at ≠ 0) && decide (t.expires_at ≤ now))) }

/-! ### Session controller (`controller.py`) -/

/-- The settings fields the session core reads. -/
structure Settings where
  maze_width : Nat
  maze_height : Nat
  start_age : Int
  goal_age : Int
deriving DecidableEq

/-- The controller: settings, state, maze and the in-memory pending-question
dict `_active_questions` (an association list in insertion order).  The
renderer-facing `_wall_grid` cache is presentation-layer data and is not
modelled. -/
structure GameController where
  settings : Settings
  state : GameState
  maze : Maze
  active_questions : List (String × Question)

/-- Result of an operation: the returned payload, the controller afterwards,
and how many synchronous snapshot writes (`save.save_now`) were performed
before returning. -/
structure Step (α : Type) where
  result : α
  ctrl : GameController
  saves : Nat

/-- `_direction_from_delta`. -/
def direction_from_delta (dx dy : Int) : Direction :=
  if dx = 1 then Direction.east
  else if dx = -1 then Direction.west
  else if dy = 1 then Direction.south
  else Direction.north

/-- ASCII `str.lower()`. -/
def lowerChar (c : Char) : Char :=
  if c.toNat < 65 ∨ 90 < c.toNat then c else Char.ofNat (c.toNat + 32)

/-- `str.lower()` on the ASCII strings the controller compares against. -/
def pyLower (s : String) : String := ⟨s.data.map lowerChar⟩

/-- Lookup of a lower-cased direction name in `DIR_TO_DELTA`. -/
def parseDir (s : String) : Option Direction :=
  if s = "north" then some Direction.north
  else if s = "south" then some Direction.south
  else if s = "east" then some Direction.east
  else if s = "west" then some Direction.west
  else none

/-- Dict read: `d.get(k)`. -/
def dictGet (l : List (String × Question)) (k : String) : Option Question :=
  (l.find? (fun kv => kv.1 == k)).map (fun kv => kv.2)

/-- Dict write: `d[k] = v` (update in place, or append preserving insertion
order). -/
def dictSet (l : List (String × Question)) (k : String) (v : Question) :
    List (String × Question) :=
  if l.any (fun kv => kv.1 == k) then
    l.map (fun kv => if kv.1 == k then (k, v) else kv)
  else l ++ [(k, v)]

/-- Dict removal: `d.pop(k, None)`. -/
def dictPop (l : List (String × Question)) (k : String) :
    Option Question × List (String × Question) :=
  (dictGet l k, l.eraseP (fun kv => kv.1 == k))

/-- String-keyed dict read over an association list. -/
def sGet (l : List (String × String)) (k : String) : Option String :=
  (l.find? (fun kv => kv.1 == k)).map (fun kv => kv.2)

/-- String-keyed dict write. -/
def sSet (l : List (String × String)) (k : String) (v : String) :
    List (String × String) :=
  if l.any (fun kv => kv.1 == k) then
    l.map (fun kv => if kv.1 == k then (k, v) else kv)
  else l ++ [(k, v)]

/-- `d.setdefault(k, v)`. -/
def sSetdefault (l : List (String × String)) (k : String) (v : String) :
    List (String × String) :=
  if l.any (fun kv => kv.1 == k) then l else l ++ [(k, v)]

/-- Pythonic `a or b` on an optional string (`None` and `""` are falsy). -/
def pyOrStr (a : Option String) (b : String) : String :=
  match a with
  | some s => if s = "" then b else s
  | none => b

/-- The `:+` sign format used in the voice summaries. -/
def fmtSigned (n : Int) : String :=
  if 0 ≤ n then "+" ++ toString n else toString n

/-- The option text selected by `answer.choice_id`, when valid. -/
def choiceText (answer : Answer) (question : Question) : Option String :=
  match answer.choice_id with
  | none => none
  | some cid =>
    if question.options ≠ [] ∧ 0 ≤ cid ∧ cid < question.options.length then
      some (question.options.getD cid.toNat "")
    else none

/-- `_build_value_delta`: clamp the growth delta to [-2, 2], credit it to
every matching tag dimension, and fall back to responsibility when no tag
matched. -/
def build_value_delta (question : Question) (review : Review) (answer : Answer) :
    ValueDimensions :=
  let base := max (-2) (min 2 review.growth_delta)
  let tags := (question.tags.getD []).map (fun t => pyLower t)
  let bump := fun (flag : Bool) =>
    if 0 < base ∧ flag = true then min 2 base
    else if base < 0 ∧ flag = true then max (-2) base
    else 0
  let vd : ValueDimensions := ⟨bump (tags.contains "empathy"), bump (tags.contains "integrity"),
    bump (tags.contains "courage"), bump (tags.contains "responsibility"),
    bump (tags.contains "independence")⟩
  if vd.empathy = 0 ∧ vd.integrity = 0 ∧ vd.courage = 0 ∧ vd.responsibility = 0 ∧
      vd.independence = 0 then
    { vd with responsibility := base }
  else vd

/-- `_build_voices`. -/
def build_voices (question : Question) (answer : Answer) (value_delta : ValueDimensions) :
    List (String × String) :=
  let ans := pyOrStr answer.free_text (pyOrStr (choiceText answer question) "your move")
  let delta_summary := "E" ++ fmtSigned value_delta.empathy ++ " I" ++
    fmtSigned value_delta.integrity ++ " Cg" ++ fmtSigned value_delta.courage ++ " R" ++
    fmtSigned value_delta.responsibility ++ " In" ++ fmtSigned value_delta.independence
  [("parents", "We see you chose " ++ ans ++
      ". Hold to your principles and care for others—grow with grace. [" ++ delta_summary ++ "]"),
    ("friend", "Bold pick! Let’s keep it real and kind. We’ve got your back. [" ++
      delta_summary ++ "]"),
    ("future_self", "This step shapes who you become—balance heart and spine. Keep learning. [" ++
      delta_summary ++ "]")]

/-- `_build_default_voices`: relabelled voices from age 60 on. -/
def build_default_voices (age : Int) (question : Question) (answer : Answer)
    (value_delta : ValueDimensions) : List (String × String) :=
  let base := build_voices question answer value_delta
  if age < 60 then base
  else
    [("child", (sGet base "parents").getD ""),
      ("friend", (sGet base "friend").getD ""),
      ("past_self", (sGet base "future_self").getD "")]

/-- `_normalize_voices`: merge provider voices (with `role1`..`role3`
aliasing) over the defaults, filling empty or missing entries. -/
def normalize_voices (age : Int) (provider_voices : Option (List (String × String)))
    (default_voices : List (String × String)) : List (String × String) :=
  let voices := provider_voices.getD []
  let normalized := voices
  let roles := [pyOrStr (sGet normalized "role1") "", pyOrStr (sGet normalized "role2") "",
    pyOrStr (sGet normalized "role3") ""]
  let normalized :=
    if (sGet normalized "role1").isSome ∨ (sGet normalized "role2").isSome ∨
        (sGet normalized "role3").isSome then
      if age < 60 then
        sSetdefault (sSetdefault (sSetdefault normalized "parents" (roles.getD 0 ""))
          "friend" (roles.getD 1 "")) "future_self" (roles.getD 2 "")
      else
        sSetdefault (sSetdefault (sSetdefault normalized "child" (roles.getD 0 ""))
          "friend" (roles.getD 1 "")) "past_self" (roles.getD 2 "")
    else normalized
  let required :=
    if age < 60 then
      [("parents", (sGet default_voices "parents").getD ""),
        ("friend", (sGet default_voices "friend").getD ""),
        ("future_self", (sGet default_voices "future_self").getD "")]
    else
      [("child", (sGet default_voices "child").getD ""),
        ("friend", (sGet default_voices "friend").getD ""),
        ("past_self", (sGet default_voices "past_self").getD "")]
  required.foldl
    (fun acc kv =>
      if pyOrStr (sGet acc kv.1) "" = "" then sSet acc kv.1 (pyOrStr (some kv.2) "")
      else acc)
    normalized

/-- Model of the `roll < 0.8` test on `random.random()` in the trap
trigger. -/
def Rng.chance80 (r : Rng) : Bool × Rng :=
  let pr := r.next
  (decide (pr.1 % 10 < 8), pr.2)

/-- Python `round` (banker's rounding at exact halves) followed by `int`. -/
def pythonRound (q : ℚ) : Int :=
  let f := ⌊q⌋
  if q - (f : ℚ) = 1 / 2 then (if Even f then f else f + 1) else round q

/-- `Maze.setWall`: write one wall flag (used by wall mutations). -/
def Maze.setWall (m : Maze) (x y : Int) (d : Direction) (b : Bool) : Maze :=
  m.updateCell x y (fun c => { c with walls := fun e => if e = d then b else c.walls e })

/-- The trap-trigger payload. -/
structure TrapEvent where
  type : String
  effect : String
  amount : Int
  hero_health : Int
  shield_active : Bool
deriving DecidableEq, Repr

/-- `_apply_trap_trigger`: pop the first trap on the tile, roll the biased
outcome, and apply the clamped health change unless a shield window is
active (`active_until > now`). -/
def apply_trap_trigger (s : GameState) (x y : Int) (now : ℚ) (rng : Rng) :
    Option TrapEvent × GameState × Rng :=
  match s.traps.find? (fun t => t.x == x && t.y == y) with
  | none => (none, s, rng)
  | some trap =>
    let s1 := { s with traps := s.traps.eraseP (fun t => t.x == x && t.y == y) }
    let rollr := rng.chance80
    let damage_main := trap.type == "mine"
    let heal_main := trap.type == "medkit"
    let effect := if (damage_main && rollr.1) || (heal_main && !rollr.1) then "damage" else "heal"
    let amount : Int := if effect = "damage" then 30 else 20
    let shield_active := match s1.shield_active_until with
      | some t => decide (now < t)
      | none => false
    if shield_active then
      (some ⟨trap.type, effect, amount, s1.hero_health, true⟩, s1, rollr.2)
    else
      let current := s1.hero_health
      let newh := if effect = "damage" then max 0 (current - amount)
        else min 100 (current + amount)
      let s2 := { s1 with hero_health := if newh ≤ 0 then 0 else newh }
      (some ⟨trap.type, effect, amount, s2.hero_health, false⟩, s2, rollr.2)

/-- Result payload of `move_player` (invalid responses carry only
`valid`/`position`/`reason` in the source; the remaining fields of the model
record are padding there). -/
structure MoveResult where
  valid : Bool
  position : Int × Int
  reason : Option String
  decision_required : Bool
  decision_node : Bool
  visited_before : Bool
  trap_event : Option TrapEvent
  hero_health : Int
deriving DecidableEq, Repr

/-- `GameController.move_player`: expire traps, validate the unit step and
the wall, move, gate the decision trigger on `active_decisions`, fire any
trap — and return without a snapshot write. -/
def GameController.move_player (c : GameController) (target_x target_y : Int)
    (now : ℚ) (rng : Rng) : Step MoveResult :=
  let s0 := c.state.expire_traps now
  let cx := s0.current_position.1
  let cy := s0.current_position.2
  let dx := target_x - cx
  let dy := target_y - cy
  if dx.natAbs + dy.natAbs ≠ 1 then
    ⟨⟨false, (cx, cy), some "invalid_step", false, false, false, none, s0.hero_health⟩,
      { c with state := s0 }, 0⟩
  else
    let direction := direction_from_delta dx dy
    match c.maze.get_cell cx cy, c.maze.get_cell target_x target_y with
    | some current_cell, some _ =>
      if c.maze.can_move current_cell direction = false then
        ⟨⟨false, (cx, cy), some "blocked", false, false, false, none, s0.hero_health⟩,
          { c with state := s0 }, 0⟩
      else
        let s1 := { s0 with current_position := (target_x, target_y) }
        let decision_required := decide ((target_x, target_y) ∈ s1.active_decisions)
        let mv := if decision_required then s1.mark_node_visited target_x target_y
          else (s1, false)
        let tr := apply_trap_trigger mv.1 target_x target_y now rng
        ⟨⟨true, (target_x, target_y), none, decision_required && mv.2, decision_required,
            if decision_required then !mv.2 else false, tr.1, tr.2.1.hero_health⟩,
          { c with state := tr.2.1 }, 0⟩
    | _, _ =>
      ⟨⟨false, (cx, cy), some "out_of_bounds", false, false, false, none, s0.hero_health⟩,
        { c with state := s0 }, 0⟩

/-- One entry of the `mutations` list (an unknown direction string is
modelled as `none`). -/
structure WallMutation where
  x : Int
  y : Int
  direction : Option Direction
  action : String

/-- `_apply_wall_mutation`: flip one wall and its neighbour's opposite side
in lockstep; report whether anything changed. -/
def apply_wall_mutation (m : Maze) (mu : WallMutation) : Maze × Bool :=
  match mu.direction with
  | none => (m, false)
  | some d =>
    if mu.action ≠ "open" ∧ mu.action ≠ "close" then (m, false)
    else
      match m.get_cell mu.x mu.y with
      | none => (m, false)
      | some cell =>
        let target_state := decide (mu.action = "close")
        if cell.walls d = target_state then (m, false)
        else
          let m1 := m.setWall mu.x mu.y d target_state
          let nx := mu.x + (dirDelta d).1
          let ny := mu.y + (dirDelta d).2
          match m1.get_cell nx ny with
          | some _ => (m1.setWall nx ny (opposite d) target_state, true)
          | none => (m1, true)

/-- `GameController.apply_wall_mutations`: apply each mutation in order and
return whether any was applied — without a snapshot write.  (The
renderer-facing `_wall_grid` rebuild is not modelled.) -/
def GameController.apply_wall_mutations (c : GameController)
    (mutations : List WallMutation) : Step Bool :=
  if mutations.isEmpty then ⟨false, c, 0⟩
  else
    let r := mutations.foldl
      (fun (acc : Maze × Bool) mu =>
        let r1 := apply_wall_mutation acc.1 mu
        (r1.1, acc.2 || r1.2))
      (c.maze, false)
    ⟨r.2, { c with maze := r.1 }, 0⟩

/-- Result payload of `jump_player`. -/
structure JumpResult where
  success : Bool
  reason : Option String
  position : Option (Int × Int)
  jump_distance : Option Int
  remaining_charges : Int
  decision_required : Bool
  decision_node : Bool
  visited_before : Bool
deriving DecidableEq, Repr

/-- `GameController.jump_player`: validated 2-or-3-cell jump over walls,
consuming one hero jump charge and persisting a snapshot. -/
def GameController.jump_player (c : GameController) (direction : String) (rng : Rng) :
    Step JumpResult :=
  if direction = "" then
    ⟨⟨false, some "invalid_direction", none, none, c.state.jump_charges, false, false, false⟩,
      c, 0⟩
  else
    match parseDir (pyLower direction) with
    | none =>
      ⟨⟨false, some "invalid_direction", none, none, c.state.jump_charges, false, false, false⟩,
        c, 0⟩
    | some d =>
      let charges := c.state.jump_charges
      if charges ≤ 0 then
        ⟨⟨false, some "no_charges", none, none, 0, false, false, false⟩, c, 0⟩
      else
        let cx := c.state.current_position.1
        let cy := c.state.current_position.2
        let candidates := ([2, 3] : List Int).filterMap (fun dist =>
          let tx := cx + (dirDelta d).1 * dist
          let ty := cy + (dirDelta d).2 * dist
          if (c.maze.get_cell tx ty).isSome then some (tx, ty, dist) else none)
        if candidates = [] then
          ⟨⟨false, some "no_destination", none, none, charges, false, false, false⟩, c, 0⟩
        else
          let pr := rng.randBelow candidates.length
          let cand := candidates.getD pr.1 (0, 0, 0)
          match c.maze.get_cell cand.1 cand.2.1 with
          | none =>
            ⟨⟨false, some "invalid_target", none, none, charges, false, false, false⟩, c, 0⟩
          | some _ =>
            let s1 := { c.state with
              current_position := (cand.1, cand.2.1)
              jump_charges := max 0 (c.state.jump_charges - 1) }
            let decision_required := decide ((cand.1, cand.2.1) ∈ s1.active_decisions)
            let mv := if decision_required then s1.mark_node_visited cand.1 cand.2.1
              else (s1, false)
            ⟨⟨true, none, some (cand.1, cand.2.1), some cand.2.2, mv.1.jump_charges,
                decision_required && mv.2, decision_required,
                if decision_required then !mv.2 else false⟩,
              { c with state := mv.1 }, 1⟩

/-- `GameController.sync_position`: force-set the hero position after a
bounds check, persisting a snapshot. -/
def GameController.sync_position (c : GameController) (target_x target_y : Int) :
    Step (Except String (Int × Int)) :=
  if ¬c.maze.inBounds target_x target_y then ⟨Except.error "out_of_bounds", c, 0⟩
  else
    ⟨Except.ok (target_x, target_y),
      { c with state := { c.state with current_position := (target_x, target_y) } }, 1⟩

/-- `GameController.start_decision`: fail unless the coordinate is an active
decision, consume it, and store the obtained question as pending.  The
`question` argument stands for the collaborator response (or the built-in
fallback, which the source substitutes on any provider failure); no
snapshot is written by this operation. -/
def GameController.start_decision (c : GameController) (x y : Int) (question : Question) :
    Step (Except String Question) :=
  if (x, y) ∉ c.state.active_decisions then
    ⟨Except.error "Current position is not an active decision node", c, 0⟩
  else
    ⟨Except.ok question,
      { c with
        state := { c.state with active_decisions := c.state.active_decisions.erase (x, y) }
        active_questions := dictSet c.active_questions question.id question }, 0⟩

/-- The state-relevant part of the `submit_decision` payload. -/
structure SubmitPayload where
  value_delta : ValueDimensions
  voices : List (String × String)
  game_complete : Bool
deriving DecidableEq

/-- `GameController.submit_decision`: reject an empty answer or an unknown
question id before any mutation; on success append the decision record,
apply growth and the value delta, record the growth entry, run the
age-gated grants, drop the pending question and persist a snapshot.
`review`, `provider_values` and `provider_voices` stand for the
collaborator responses. -/
def GameController.submit_decision (c : GameController) (question_id : String)
    (choice_id : Option Int) (free_text : Option String) (review : Review)
    (provider_values : Option ValueDimensions)
    (provider_voices : Option (List (String × String))) :
    Step (Except String SubmitPayload) :=
  let answer : Answer := ⟨choice_id, free_text⟩
  if answer.is_empty then ⟨Except.error "Missing decision answer", c, 0⟩
  else
    match dictGet c.active_questions question_id with
    | none => ⟨Except.error "Question not found; please re-trigger decision.", c, 0⟩
    | some question =>
      let current_age := c.state.age
      let pop := dictPop c.active_questions question_id
      let stored_question := pop.1.getD question
      let record : DecisionRecord := ⟨stored_question, answer, review, c.state.age, c.state.stage⟩
      let s1 := c.state.append_decision record
      let s2 := s1.apply_growth review.growth_delta
      let value_delta := provider_values.getD (build_value_delta stored_question review answer)
      let s3 := s2.apply_value_delta value_delta
      let default_voices := build_default_voices current_age stored_question answer value_delta
      let voices := normalize_voices current_age provider_voices default_voices
      let growth_rec : GrowthRecord :=
        ⟨stored_question.id, stored_question.prompt, s3.age, s3.stage, value_delta, voices, none⟩
      let s4 := s3.append_growth_record growth_rec
      let s5 := s4.grant_jump_bonus c.settings.start_age
      let s6 := s5.grant_escape_by_age
      let s7 := s6.grant_shield_bonus
      ⟨Except.ok ⟨value_delta, voices, s7.is_goal_reached c.settings.goal_age⟩,
        { c with state := s7, active_questions := pop.2 }, 1⟩

/-- Result payload of `throw_lift`. -/
structure ThrowResult where
  position : Int × Int
  decision_required : Bool
  decision_node : Bool
  visited_before : Bool
  hero_dead : Bool
  hero_health : Int
deriving DecidableEq, Repr

/-- `GameController.throw_lift`: throw the hero 2 or 3 tiles from the ally
tile; an out-of-bounds landing still stores the target position and forces
hero health to 0 instead of rejecting the move. -/
def GameController.throw_lift (c : GameController) (ally : Int × Int) (direction : String)
    (rng : Rng) : Step (Except String ThrowResult) :=
  match parseDir (pyLower direction) with
  | none => ⟨Except.error "Invalid direction", c, 0⟩
  | some d =>
    let pr := rng.randBelow 2
    let dist : Int := if pr.1 = 0 then 2 else 3
    let tx := ally.1 + (dirDelta d).1 * dist
    let ty := ally.2 + (dirDelta d).2 * dist
    let target_cell := if c.maze.inBounds tx ty then c.maze.get_cell tx ty else none
    match target_cell with
    | some _ =>
      let s1 := { c.state with current_position := (tx, ty) }
      let decision_required := decide ((tx, ty) ∈ s1.active_decisions)
      let mv := if decision_required then
          let m := s1.mark_node_visited tx ty
          ({ m.1 with active_decisions := m.1.active_decisions.erase (tx, ty) }, m.2)
        else (s1, false)
      ⟨Except.ok ⟨(tx, ty), decision_required && mv.2, decision_required,
          if decision_required then !mv.2 else false, false, mv.1.hero_health⟩,
        { c with state := mv.1 }, 1⟩
    | none =>
      let s1 := { c.state with current_position := (tx, ty), hero_health := 0 }
      ⟨Except.ok ⟨(tx, ty), false, false, false, true, s1.hero_health⟩,
        { c with state := s1 }, 1⟩

/-- `GameController.start_lift`: verify lift range, consume a charge,
persist. -/
def GameController.start_lift (c : GameController) (hero ally : Int × Int) (now : ℚ) :
    Step (Except String Int) :=
  let s0 := c.state.replenish_lift_state now
  if s0.ally_lift_charges ≤ 0 then
    ⟨Except.error "No lift charges left", { c with state := s0 }, 0⟩
  else
    let dx := hero.1 - ally.1
    let dy := hero.2 - ally.2
    if ¬((dy = 0 ∧ dx.natAbs ≤ 2) ∨ (dx = 0 ∧ dy.natAbs ≤ 2)) then
      ⟨Except.error "Out of reach – ally boost whiffs", { c with state := s0 }, 0⟩
    else
      let s1 := { s0 with
        ally_lift_charges := max 0 (s0.ally_lift_charges - 1)
        ally_lift_last_bonus_ts := some now }
      ⟨Except.ok s1.ally_lift_charges, { c with state := s1 }, 1⟩

/-- `GameController.place_trap`. -/
def GameController.place_trap (c : GameController) (trap_type : String) (x y : Int)
    (now : ℚ) : Step (Except String Int) :=
  let tt := pyLower trap_type
  if tt ≠ "mine" ∧ tt ≠ "medkit" then ⟨Except.error "invalid trap type", c, 0⟩
  else
    let s0 := c.state.replenish_trap_state now
    if s0.ally_trap_charges ≤ 0 then
      ⟨Except.error "No trap charges left", { c with state := s0 }, 0⟩
    else if ¬c.maze.inBounds x y then
      ⟨Except.error "Out of bounds", { c with state := s0 }, 0⟩
    else
      let traps1 := s0.traps.filter (fun t => !(t.x == x && t.y == y))
      let trap : Trap := ⟨tt, x, y, now, now + 30, now + 60⟩
      let s1 := { s0 with
        traps := traps1 ++ [trap]
        ally_trap_charges := s0.ally_trap_charges - 1
        ally_trap_last_bonus_ts := some now }
      ⟨Except.ok s1.ally_trap_charges, { c with state := s1 }, 1⟩

/-- `GameController.blink_ally`: teleport the ally to a random in-bounds
cell within taxicab distance 3 of the hero. -/
def GameController.blink_ally (c : GameController) (now : ℚ) (rng : Rng) :
    Step (Except String (Int × Int)) :=
  let s0 := c.state.replenish_blink_state now
  if s0.ally_blink_charges ≤ 0 then
    ⟨Except.error "No blink charges left", { c with state := s0 }, 0⟩
  else
    let hx := s0.current_position.1
    let hy := s0.current_position.2
    let candidates := (List.range 7).flatMap (fun i =>
      (List.range 7).filterMap (fun j =>
        let dx : Int := (Int.ofNat i) - 3
        let dy : Int := (Int.ofNat j) - 3
        if dx.natAbs + dy.natAbs = 0 ∨ 3 < dx.natAbs + dy.natAbs then none
        else if (c.maze.get_cell (hx + dx) (hy + dy)).isSome then some (hx + dx, hy + dy)
        else none))
    if candidates = [] then
      ⟨Except.error "No valid blink target", { c with state := s0 }, 0⟩
    else
      let pr := rng.randBelow candidates.length
      let target := candidates.getD pr.1 (0, 0)
      let s1 := { s0 with
        ally_position := some target
        ally_blink_charges := s0.ally_blink_charges - 1
        ally_blink_last_bonus_ts := some now }
      ⟨Except.ok target, { c with state := s1 }, 1⟩

/-- `GameController.escape_hero`: consume an escape charge after the
age-gated grant; optionally snap to a supplied in-bounds cell. -/
def GameController.escape_hero (c : GameController) (x y : Option Int) :
    Step (Except String (Int × (Int × Int))) :=
  let s0 := c.state.grant_escape_by_age
  if s0.hero_escape_charges ≤ 0 then
    ⟨Except.error "No escape charges", { c with state := s0 }, 0⟩
  else
    let s1 := { s0 with hero_escape_charges := s0.hero_escape_charges - 1 }
    let s2 := match x, y with
      | some xv, some yv =>
        if c.maze.inBounds xv yv then { s1 with current_position := (xv, yv) } else s1
      | _, _ => s1
    ⟨Except.ok (s2.hero_escape_charges, s2.current_position), { c with state := s2 }, 1⟩

/-- `GameController.activate_shield`: consume a shield charge (after the
age-gated grant) and open a 10-second shield window. -/
def GameController.activate_shield (c : GameController) (now : ℚ) :
    Step (Except String (Int × ℚ)) :=
  let s0 := c.state.grant_shield_bonus
  if s0.shield_charges ≤ 0 then
    ⟨Except.error "No shield charges", { c with state := s0 }, 0⟩
  else
    let s1 := { s0 with
      shield_charges := s0.shield_charges - 1
      shield_active_until := some (now + 10) }
    ⟨Except.ok (s1.shield_charges, now + 10), { c with state := s1 }, 1⟩

/-- `GameController.apply_freeze_hit` (`_sync_trap_state` reduces to its
shield grant in this model, where every field exists). -/
def GameController.apply_freeze_hit (c : GameController) (damage_percent : Option ℚ)
    (now : ℚ) : Step (Int × Int) :=
  let s0 := c.state.grant_shield_bonus
  let percent := match damage_percent with
    | none => (5 : ℚ)
    | some p => max 0 p
  let damage := max 1 (pythonRound (100 * (percent / 100)))
  let s1 := { s0 with hero_health := max 0 (s0.hero_health - damage) }
  ⟨(s1.hero_health, damage), { c with state := s1 }, 1⟩

/-- `GameController.set_active_decisions`: replace the active set with the
in-bounds members of the supplied coordinates, persisting a snapshot. -/
def GameController.set_active_decisions (c : GameController) (coords : List (Int × Int)) :
    Step Unit :=
  let filtered := coords.filter (fun p => decide (c.maze.inBounds p.1 p.2))
  ⟨(), { c with state := { c.state with active_decisions := filtered.toFinset } }, 1⟩

/-- `_init_active_decisions`: every not-yet-visited cell of the maze is a
candidate (the source does not restrict to decision-node cells); shuffle
and keep at most 8. -/
def GameController.init_active_decisions (c : GameController) (rng : Rng) : GameState :=
  let candidates := (coordsList c.maze.width c.maze.height).filter
    (fun p => !decide (p ∈ c.state.visited_nodes))
  let sh := shuffle candidates rng
  { c.state with active_decisions := (sh.1.take (min 8 candidates.length)).toFinset }

/-- The state updates performed by `get_state_payload` before the payload is
assembled (the payload then reports the updated fields directly, e.g. its
shield charge count is `shield_charges` of this state). -/
def GameController.get_state_payload_state (c : GameController) (now : ℚ) : GameState :=
  let s := c.state.replenish_ally_jump_state now
  let s := s.replenish_freeze_state now
  let s := s.replenish_expand_state now
  let s := s.replenish_lift_state now
  let s := s.replenish_dissolve_state now
  let s := s.expire_dissolved c.maze now
  let s := s.replenish_trap_state now
  let s := s.expire_traps now
  s.sync_shield_state now

/-- The `_sync_*` cascade run by `GameController.__init__` (lines 75-90 of
`controller.py`), including the duplicated lift replenish call. -/
def GameController.constructSync (c : GameController) (now : ℚ) : GameState :=
  let s := { c.state with jump_charges := max 0 c.state.jump_charges }
  let s := s.grant_jump_bonus c.settings.start_age
  let s := s.replenish_ally_jump_state now
  let s := s.grant_shield_bonus
  let s := s.replenish_freeze_state now
  let s := s.replenish_expand_state now
  let s := s.replenish_lift_state now
  let s := s.replenish_lift_state now
  let s := s.expire_dissolved c.maze now
  let s := s.replenish_dissolve_state now
  let s := s.replenish_dissolve_state now
  let s := s.expire_dissolved c.maze now
  let s := s.grant_shield_bonus
  let s := s.replenish_trap_state now
  let s := s.expire_traps now
  let s := match s.ally_position with
    | none =>
      let ap := (min ((c.maze.width : Int) - 1) (s.current_position.1 + 1), s.current_position.2)
      { s with ally_position := some ap }
    | some _ => s
  let s := s.replenish_blink_state now
  let s := s.grant_escape_by_age
  s.sync_shield_state now

/-- `GameController.__init__`: seed the active-decision set when empty, then
run the sync cascade. -/
def GameController.construct (settings : Settings) (state : GameState) (maze : Maze)
    (rng : Rng) (now : ℚ) : GameController :=
  let c0 : GameController := ⟨settings, state, maze, []⟩
  let c1 := if c0.state.active_decisions = ∅ then
      { c0 with state := c0.init_active_decisions rng }
    else c0
  { c1 with state := c1.constructSync now }

/-! ### Concrete fixtures used by witnesses and counterexamples -/

/-- A deterministic all-zero PRNG stream. -/
def rngZero : Rng := ⟨fun _ => 0, 0⟩

/-- A small fully-walled fixture maze (2 x 1). -/
def mazeFix : Maze :=
  { width := 2, height := 1, seed := 0, grid := fun x y => Cell.init x y, start_pos := (0, 0) }

/-- A wider fully-walled fixture maze (4 x 1), used for jump targets. -/
def mazeFix4 : Maze :=
  { width := 4, height := 1, seed := 0, grid := fun x y => Cell.init x y, start_pos := (0, 0) }

/-- A fixture question. -/
def q0 : Question := ⟨"q1", "Prompt", ["a", "b"], 1 / 2, some ["integrity"]⟩

/-- A fixture review. -/
def review0 : Review := ⟨2, 1 / 2, "ok"⟩

/-- Fixture settings. -/
def settings0 : Settings := ⟨2, 1, 10, 90⟩

/-- A fixture controller on the fully-walled 2 x 1 maze. -/
def ctrlFix : GameController := ⟨settings0, GameState.fresh 0, mazeFix, []⟩

/-- A fixture controller on the fully-walled 4 x 1 maze. -/
def ctrlFix4 : GameController := ⟨settings0, GameState.fresh 0, mazeFix4, []⟩

/-- A fixture controller whose active set holds `(1, 0)`. -/
def ctrlAct : GameController :=
  ⟨settings0, { GameState.fresh 0 with active_decisions := {((1 : Int), (0 : Int))} }, mazeFix, []⟩

/-- A fixture controller on the generated 2 x 1 maze. -/
def ctrlGen21 : GameController := ⟨settings0, GameState.fresh 0, generate_maze 2 1 0, []⟩

/-- A fixture controller on the generated 1 x 1 maze. -/
def ctrlGen11 : GameController := ⟨⟨1, 1, 10, 90⟩, GameState.fresh 0, generate_maze 1 1 0, []⟩

/-- A fixture controller whose trap replenisher has no last timestamp. -/
def ctrlT : GameController :=
  ⟨settings0, { GameState.fresh 0 with ally_trap_last_bonus_ts := none }, mazeFix, []⟩

/-- A fixture controller holding the pending question `q0`. -/
def ctrlQ : GameController := ⟨settings0, GameState.fresh 0, mazeFix, [("q1", q0)]⟩

/-! ### The claims -/

/-- Claim C3: for every width, height and seed, two runs of `generate_maze`
with the same seed produce identical wall layouts and identical
decision-node flags in every cell.  `random.seed(seed)` makes the PRNG
stream a pure function of the seed, so in the embedding the two runs
denote the same pure value and the claim holds definitionally. -/
theorem C3_generate_deterministic (w h seed : Nat) :
    (∀ (x y : Int) (d : Direction),
      ((generate_maze w h seed).grid x y).walls d = ((generate_maze w h seed).grid x y).walls d) ∧
    (∀ x y : Int,
      ((generate_maze w h seed).grid x y).decision_node =
        ((generate_maze w h seed).grid x y).decision_node) ∧
    generate_maze w h seed = generate_maze w h seed :=
  ⟨fun _ _ _ => rfl, fun _ _ => rfl, rfl⟩

/-- Claim C4: every maze produced by `generate_maze` (with positive
dimensions) is a spanning tree of the grid: every in-bounds cell is
reachable from the start cell `(0, 0)` through open walls, exactly
`w * h - 1` internal walls have been removed, and all wall openings are
symmetric internal passages. -/
theorem C4_spanning_tree (w h seed : Nat) (hw : 1 ≤ w) (hh : 1 ≤ h) :
    (∀ x y, (generate_maze w h seed).inBounds x y →
      (generate_maze w h seed).Reach (0, 0) (x, y)) ∧
    (generate_maze w h seed).removedWallCount = w * h - 1 ∧
    Maze.wallsSymmetric (generate_maze w h seed) :=
  generateMazeWith_spanning w h seed (pythonSeed seed) hw hh

/-- Witness for C4 at the concrete instance `w = 2, h = 1, seed = 0`. -/
theorem C4_spanning_tree_witness :
    (∀ x y, (generate_maze 2 1 0).inBounds x y →
      (generate_maze 2 1 0).Reach (0, 0) (x, y)) ∧
    (generate_maze 2 1 0).removedWallCount = 2 * 1 - 1 ∧
    Maze.wallsSymmetric (generate_maze 2 1 0) :=
  C4_spanning_tree 2 1 0 (by decide) (by decide)

/-- Counterexample to claim C9 as stated: the maze generated on a 1 x 1
grid ends generation with zero decision nodes, fewer than 5. -/
theorem C9_counterexample : (generate_maze 1 1 0).decisionCount < 5 := by
  rw [generate11]
  decide

/-- Claim C9 as amended: after generation at least
`min 5 (number of cells with at least two open sides)` cells are decision
nodes — the deficit-filling pass stops early only when it runs out of
candidate cells. -/
theorem C9_decision_lower (w h seed : Nat) :
    min 5 (generate_maze w h seed).ge2OpenCount ≤ (generate_maze w h seed).decisionCount :=
  generateMazeWith_decision_lower w h seed (pythonSeed seed)

/-- Claim C1: `start_decision` fails whenever the coordinate is not an
active decision; on success it removes the coordinate from the active set,
so a second `start_decision` at the same coordinate fails — the
consumption happens exactly once. -/
theorem C1_start_decision_exactly_once :
    ∀ (c : GameController) (x y : Int) (q q2 : Question),
      ((x, y) ∉ c.state.active_decisions →
        (c.start_decision x y q).result =
          Except.error "Current position is not an active decision node" ∧
        (c.start_decision x y q).ctrl = c) ∧
      ((x, y) ∈ c.state.active_decisions →
        (x, y) ∉ (c.start_decision x y q).ctrl.state.active_decisions ∧
        ((c.start_decision x y q).ctrl.start_decision x y q2).result =
          Except.error "Current position is not an active decision node") := by
  intro c x y q q2
  constructor
  · intro hmem
    unfold GameController.start_decision
    rw [if_pos hmem]
    exact ⟨rfl, rfl⟩
  · intro hmem
    have hc : (c.start_decision x y q).ctrl =
        ⟨c.settings, { c.state with active_decisions := c.state.active_decisions.erase (x, y) },
          c.maze, dictSet c.active_questions q.id q⟩ := by
      unfold GameController.start_decision
      rw [if_neg (not_not_intro hmem)]
    constructor
    · rw [hc]
      exact Finset.not_mem_erase _ _
    · rw [hc]
      unfold GameController.start_decision
      rw [if_pos (Finset.not_mem_erase _ _)]

/-- Witness for C1: on a controller whose active set is `{(1, 0)}`,
starting at `(0, 0)` fails; starting at `(1, 0)` consumes the coordinate
and a second start there fails. -/
theorem C1_witness :
    ((GameController.start_decision ctrlAct 0 0 q0).result =
        Except.error "Current position is not an active decision node" ∧
      (GameController.start_decision ctrlAct 0 0 q0).ctrl = ctrlAct) ∧
    ((1, 0) ∉ (GameController.start_decision ctrlAct 1 0 q0).ctrl.state.active_decisions ∧
      ((GameController.start_decision ctrlAct 1 0 q0).ctrl.start_decision 1 0 q0).result =
        Except.error "Current position is not an active decision node") := by
  have h1 := C1_start_decision_exactly_once ctrlAct 0 0 q0 q0
  have h2 := C1_start_decision_exactly_once ctrlAct 1 0 q0 q0
  exact ⟨h1.1 (by decide), h2.2 (by decide)⟩

/-- Claim C2: every time-gated regeneration pass whose elapsed time reaches
the interval awards `floor(elapsed / interval) * per_tick_gain` charges
capped at the ability cap and advances the last tick by exactly that many
whole intervals, leaving the sub-interval remainder in place; each of the
seven time-gated ability replenishers (the two-phase ones in their
steady phase) is an instance of this pattern, and the ally jump instance
grants exactly 3 charges for 46 elapsed seconds, advancing the tick by
45 seconds. -/
theorem C2_time_gated_regen :
    (∀ (cap : Int) (interval : ℚ) (gain charges : Int) (last now : ℚ),
      0 < interval → interval ≤ now - last →
      replenishTimeGated cap interval gain charges last now =
        (min cap (max 0 charges + ⌊(now - last) / interval⌋ * gain),
          last + (⌊(now - last) / interval⌋ : ℚ) * interval) ∧
      (0 : ℚ) ≤ (now - last) - (⌊(now - last) / interval⌋ : ℚ) * interval ∧
      (now - last) - (⌊(now - last) / interval⌋ : ℚ) * interval < interval) ∧
    (∀ (charges : Int) (last now : ℚ), replenish_ally_jump charges (some last) now =
      ((replenishTimeGated 4 15 1 charges last now).1,
        some (replenishTimeGated 4 15 1 charges last now).2)) ∧
    (∀ (charges : Int) (last now : ℚ), replenish_blink charges (some last) now =
      ((replenishTimeGated 2 20 1 charges last now).1,
        some (replenishTimeGated 2 20 1 charges last now).2)) ∧
    (∀ (charges : Int) (last now : ℚ), replenish_trap charges (some last) now =
      ((replenishTimeGated 2 20 1 charges last now).1,
        some (replenishTimeGated 2 20 1 charges last now).2)) ∧
    (∀ (cap charges : Int) (last now : ℚ), replenish_dissolve cap charges (some last) now =
      ((replenishTimeGated cap 15 1 charges last now).1,
        some (replenishTimeGated cap 15 1 charges last now).2)) ∧
    (∀ (charges : Int) (last now : ℚ), replenish_freeze charges true (some last) now =
      ((replenishTimeGated 3 30 1 charges last now).1, true,
        some (replenishTimeGated 3 30 1 charges last now).2)) ∧
    (∀ (charges : Int) (last now : ℚ), replenish_expand charges true (some last) now =
      ((replenishTimeGated 5 20 2 charges last now).1, true,
        some (replenishTimeGated 5 20 2 charges last now).2)) ∧
    (∀ (charges : Int) (last now : ℚ), replenish_lift charges true (some last) now =
      ((replenishTimeGated 2 20 1 charges last now).1, true,
        some (replenishTimeGated 2 20 1 charges last now).2)) ∧
    replenish_ally_jump 0 (some 0) 46 = (3, some 45) := by
  have hfloor : ∀ (interval e : ℚ), 0 < interval → interval ≤ e → (1 : Int) ≤ ⌊e / interval⌋ := by
    intro interval e hpos hle
    rw [Int.le_floor]
    push_cast
    rw [le_div_iff hpos]
    linarith
  refine ⟨?_, ?_, ?_, ?_, ?_, ?_, ?_, ?_, ?_⟩
  · intro cap interval gain charges last now hpos hle
    refine ⟨?_, ?_, ?_⟩
    · unfold replenishTimeGated
      rw [if_pos hle]
    · have h1 := Int.floor_le ((now - last) / interval)
      rw [le_div_iff hpos] at h1
      linarith
    · have h2 := Int.lt_floor_add_one ((now - last) / interval)
      rw [div_lt_iff hpos] at h2
      push_cast at h2
      linarith
  · intro charges last now
    by_cases h : (15 : ℚ) ≤ now - last <;>
      simp [replenish_ally_jump, replenishTimeGated, h]
  · intro charges last now
    by_cases h : (20 : ℚ) ≤ now - last <;>
      simp [replenish_blink, replenishTimeGated, h]
  · intro charges last now
    by_cases h : (20 : ℚ) ≤ now - last <;>
      simp [replenish_trap, replenishTimeGated, h]
  · intro cap charges last now
    by_cases h : (15 : ℚ) ≤ now - last <;>
      simp [replenish_dissolve, replenishTimeGated, h]
  · intro charges last now
    by_cases h : (30 : ℚ) ≤ now - last
    · have hg := hfloor 30 (now - last) (by norm_num) h
      simp [replenish_freeze, replenishTimeGated, h,
        show (0 : Int) < ⌊(now - last) / 30⌋ by omega]
    · simp [replenish_freeze, replenishTimeGated, h]
  · intro charges last now
    by_cases h : (20 : ℚ) ≤ now - last
    · have hg := hfloor 20 (now - last) (by norm_num) h
      simp [replenish_expand, replenishTimeGated, h,
        show (0 : Int) < ⌊(now - last) / 20⌋ by omega]
    · simp [replenish_expand, replenishTimeGated, h]
  · intro charges last now
    by_cases h : (20 : ℚ) ≤ now - last
    · have hg := hfloor 20 (now - last) (by norm_num) h
      simp [replenish_lift, replenishTimeGated, h,
        show ¬ now - last < 10 by linarith,
        show (0 : Int) < ⌊(now - last) / 20⌋ by omega]
    · simp [replenish_lift, replenishTimeGated, h]
  · have hfl : ⌊((46 : ℚ) - 0) / 15⌋ = 3 := by
      rw [Int.floor_eq_iff]
      norm_num
    simp [replenish_ally_jump, show (15 : ℚ) ≤ 46 - 0 by norm_num, hfl]
    norm_num

/-- Witness for C2: the generic pass at the ally-jump parameters with 46
elapsed seconds. -/
theorem C2_witness :
    replenishTimeGated 4 15 1 0 0 46 =
      (min 4 (max 0 0 + ⌊((46 : ℚ) - 0) / 15⌋ * 1), 0 + (⌊((46 : ℚ) - 0) / 15⌋ : ℚ) * 15) ∧
    replenish_ally_jump 0 (some 0) 46 = (3, some 45) := by
  have h := C2_time_gated_regen
  exact ⟨(h.1 4 15 1 0 0 46 (by norm_num) (by norm_num)).1, h.2.2.2.2.2.2.2.2⟩

/-- Claim C8: `submit_decision` with a question id that has no pending
question always fails without any state mutation (no history append, no
growth, no value change, no pending-question removal), and — whenever the
answer itself is non-empty, so that the id check is reached — the failure
is precisely the stale-reference rejection. -/
theorem C8_submit_unknown_id :
    ∀ (c : GameController) (qid : String) (choice_id : Option Int) (free_text : Option String)
      (review : Review) (pv : Option ValueDimensions) (pw : Option (List (String × String))),
      dictGet c.active_questions qid = none →
      ((c.submit_decision qid choice_id free_text review pv pw).ctrl = c ∧
        (c.submit_decision qid choice_id free_text review pv pw).saves = 0 ∧
        (∃ e, (c.submit_decision qid choice_id free_text review pv pw).result =
          Except.error e)) ∧
      ((Answer.mk choice_id free_text).is_empty = false →
        (c.submit_decision qid choice_id free_text review pv pw).result =
          Except.error "Question not found; please re-trigger decision.") := by
  intro c qid choice_id free_text review pv pw hget
  unfold GameController.submit_decision
  by_cases he : (Answer.mk choice_id free_text).is_empty = true
  · rw [if_pos he]
    exact ⟨⟨rfl, rfl, "Missing decision answer", rfl⟩, fun hne => absurd he (by rw [hne]; simp)⟩
  · rw [if_neg he]
    rw [hget]
    exact ⟨⟨rfl, rfl, "Question not found; please re-trigger decision.", rfl⟩, fun _ => rfl⟩

/-- Witness for C8: submitting against an empty pending dict with an
unknown id and a non-empty answer. -/
theorem C8_witness :
    ((GameController.submit_decision ctrlFix "nope" (some 0) none review0 none none).ctrl =
        ctrlFix ∧
      (GameController.submit_decision ctrlFix "nope" (some 0) none review0 none none).saves = 0 ∧
      (∃ e, (GameController.submit_decision ctrlFix "nope" (some 0) none review0 none
        none).result = Except.error e)) ∧
    (GameController.submit_decision ctrlFix "nope" (some 0) none review0 none none).result =
      Except.error "Question not found; please re-trigger decision." := by
  have h := C8_submit_unknown_id ctrlFix "nope" (some 0) none review0 none none (by decide)
  exact ⟨h.1, h.2 (by decide)⟩

/-- Claim C5 is refuted: `_init_active_decisions` samples from every
unvisited cell of the maze, not from the decision-node cells.  On the
generated 1 x 1 maze the lone cell `(0, 0)` is not a decision node, yet it
becomes active. -/
theorem C5_counterexample :
    ((0 : Int), (0 : Int)) ∈ (ctrlGen11.init_active_decisions rngZero).active_decisions ∧
    ((ctrlGen11.maze.grid 0 0).decision_node = false) ∧
    ((0 : Int), (0 : Int)) ∉ ctrlGen11.state.visited_nodes := by
  refine ⟨?_, ?_, ?_⟩
  · simp only [ctrlGen11, GameController.init_active_decisions]
    rw [generate11]
    decide
  · simp only [ctrlGen11]
    rw [generate11]
    decide
  · decide

/-- Claim C5 (amended): the initial population draws up to 8 coordinates
from the in-bounds cells not yet visited (with no decision-node
restriction), and `set_active_decisions` keeps only in-bounds
coordinates. -/
theorem C5_active_in_bounds :
    ∀ (c : GameController) (rng : Rng),
      (∀ p ∈ (c.init_active_decisions rng).active_decisions,
        c.maze.inBounds p.1 p.2 ∧ p ∉ c.state.visited_nodes) ∧
      (c.init_active_decisions rng).active_decisions.card ≤ 8 ∧
      (∀ (coords : List (Int × Int)) (p : Int × Int),
        p ∈ (c.set_active_decisions coords).ctrl.state.active_decisions →
        c.maze.inBounds p.1 p.2) := by
  intro c rng
  refine ⟨?_, ?_, ?_⟩
  · intro p hp
    simp only [GameController.init_active_decisions] at hp
    rw [List.mem_toFinset] at hp
    have hp2 := List.mem_of_mem_take hp
    have hp3 := (shuffle_perm _ rng).mem_iff.mp hp2
    rw [List.mem_filter] at hp3
    obtain ⟨hpc, hpv⟩ := hp3
    rw [mem_coordsList] at hpc
    refine ⟨⟨hpc.1, hpc.2.1, hpc.2.2.1, hpc.2.2.2⟩, ?_⟩
    simpa using hpv
  · simp only [GameController.init_active_decisions]
    refine le_trans (List.toFinset_card_le _) ?_
    rw [List.length_take]
    omega
  · intro coords p hp
    simp only [GameController.set_active_decisions] at hp
    rw [List.mem_toFinset, List.mem_filter] at hp
    exact of_decide_eq_true hp.2

/-- Witness for C5 (amended) on the fully-walled 2 x 1 fixture. -/
theorem C5_witness :
    (ctrlFix.maze.inBounds 1 0 ∧ ((1 : Int), (0 : Int)) ∉ ctrlFix.state.visited_nodes) ∧
    (ctrlFix.init_active_decisions rngZero).active_decisions.card ≤ 8 ∧
    ctrlFix.maze.inBounds 0 0 := by
  have h := C5_active_in_bounds ctrlFix rngZero
  exact ⟨h.1 (1, 0) (by decide), h.2.1, h.2.2 [(0, 0)] (0, 0) (by decide)⟩

/-- Claim C6 is refuted: a lift throw whose target is out of bounds stores
the out-of-bounds coordinate as the hero position (and forces health 0), so
the stored hero position is not always within maze bounds. -/
theorem C6_counterexample :
    (GameController.throw_lift ctrlFix (1, 0) "east" rngZero).ctrl.state.current_position =
      (3, 0) ∧
    ¬ ctrlFix.maze.inBounds 3 0 ∧
    (GameController.throw_lift ctrlFix (1, 0) "east" rngZero).ctrl.state.hero_health = 0 := by
  decide

/-- Claim C6 (amended): `sync_position` rejects out-of-bounds targets and
stores in-bounds ones, while `throw_lift` stores the computed target
unconditionally — when the target is out of bounds the position is written
anyway and hero health is forced to 0. -/
theorem C6_position_bounds :
    (∀ (c : GameController) (x y : Int),
      (c.maze.inBounds x y →
        (c.sync_position x y).ctrl.state.current_position = (x, y) ∧
        c.maze.inBounds (c.sync_position x y).ctrl.state.current_position.1
          (c.sync_position x y).ctrl.state.current_position.2) ∧
      (¬c.maze.inBounds x y → (c.sync_position x y).ctrl = c)) ∧
    (∀ (c : GameController) (ally : Int × Int) (dir : String) (rng : Rng) (d : Direction)
      (dist tx ty : Int),
      parseDir (pyLower dir) = some d →
      dist = (if (rng.randBelow 2).1 = 0 then 2 else 3) →
      tx = ally.1 + (dirDelta d).1 * dist →
      ty = ally.2 + (dirDelta d).2 * dist →
      ¬c.maze.inBounds tx ty →
      (c.throw_lift ally dir rng).ctrl.state.current_position = (tx, ty) ∧
      (c.throw_lift ally dir rng).ctrl.state.hero_health = 0) := by
  constructor
  · intro c x y
    constructor
    · intro hin
      unfold GameController.sync_position
      rw [if_neg (not_not_intro hin)]
      exact ⟨rfl, hin⟩
    · intro hout
      unfold GameController.sync_position
      rw [if_pos hout]
  · intro c ally dir rng d dist tx ty hpd hdist htx hty hoob
    subst hdist
    subst htx
    subst hty
    simp only [GameController.throw_lift, hpd]
    rw [if_neg hoob]
    exact ⟨rfl, rfl⟩

/-- Witness for C6 (amended): a valid sync, a rejected sync, and an
out-of-bounds throw on the 2 x 1 fixture. -/
theorem C6_witness :
    ((ctrlFix.sync_position 1 0).ctrl.state.current_position = (1, 0) ∧
      ctrlFix.maze.inBounds (ctrlFix.sync_position 1 0).ctrl.state.current_position.1
        (ctrlFix.sync_position 1 0).ctrl.state.current_position.2) ∧
    (ctrlFix.sync_position 5 5).ctrl = ctrlFix ∧
    ((ctrlFix.throw_lift (1, 0) "east" rngZero).ctrl.state.current_position = (3, 0) ∧
      (ctrlFix.throw_lift (1, 0) "east" rngZero).ctrl.state.hero_health = 0) := by
  have h := C6_position_bounds
  refine ⟨(h.1 ctrlFix 1 0).1 (by decide), (h.1 ctrlFix 5 5).2 (by decide), ?_⟩
  exact h.2 ctrlFix (1, 0) "east" rngZero Direction.east 2 3 0 (by decide) (by decide)
    (by decide) (by decide) (by decide)

/-- Claim C7 is refuted: a successful `move_player` and an applied
`apply_wall_mutations` return without any snapshot write. -/
theorem C7_counterexample :
    (GameController.move_player ctrlGen21 1 0 0 rngZero).result.valid = true ∧
    (GameController.move_player ctrlGen21 1 0 0 rngZero).saves = 0 ∧
    (GameController.apply_wall_mutations ctrlFix
      [⟨0, 0, some Direction.east, "open"⟩]).result = true ∧
    (GameController.apply_wall_mutations ctrlFix
      [⟨0, 0, some Direction.east, "open"⟩]).saves = 0 := by
  refine ⟨?_, ?_, ?_, ?_⟩
  · simp only [ctrlGen21, GameController.move_player]
    rw [generate21]
    decide
  · simp only [ctrlGen21, GameController.move_player]
    rw [generate21]
    decide
  · decide
  · decide

/-- Claim C7 (amended): `move_player` and `apply_wall_mutations` never
write a snapshot; the other mutating entry points write exactly one
snapshot on their success paths. -/
theorem C7_snapshot_discipline :
    (∀ (c : GameController) (tx ty : Int) (now : ℚ) (rng : Rng),
      (c.move_player tx ty now rng).saves = 0) ∧
    (∀ (c : GameController) (ms : List WallMutation), (c.apply_wall_mutations ms).saves = 0) ∧
    (∀ (c : GameController) (dir : String) (rng : Rng),
      (c.jump_player dir rng).result.success = true → (c.jump_player dir rng).saves = 1) ∧
    (∀ (c : GameController) (x y : Int),
      c.maze.inBounds x y → (c.sync_position x y).saves = 1) ∧
    (∀ (c : GameController) (tt : String) (x y : Int) (now : ℚ),
      pyLower tt = "mine" → 0 < (c.state.replenish_trap_state now).ally_trap_charges →
      c.maze.inBounds x y → (c.place_trap tt x y now).saves = 1) ∧
    (∀ (c : GameController) (now : ℚ),
      0 < c.state.grant_shield_bonus.shield_charges → (c.activate_shield now).saves = 1) ∧
    (∀ (c : GameController) (qid : String) (ci : Option Int) (ft : Option String) (rv : Review)
      (pv : Option ValueDimensions) (pw : Option (List (String × String))),
      (Answer.mk ci ft).is_empty = false → (dictGet c.active_questions qid).isSome = true →
      (c.submit_decision qid ci ft rv pv pw).saves = 1) := by
  refine ⟨?_, ?_, ?_, ?_, ?_, ?_, ?_⟩
  · intro c tx ty now rng
    simp only [GameController.move_player]
    repeat' split
    all_goals rfl
  · intro c ms
    unfold GameController.apply_wall_mutations
    split
    · rfl
    · rfl
  · intro c dir rng
    have key : (c.jump_player dir rng).saves =
        if (c.jump_player dir rng).result.success then 1 else 0 := by
      simp only [GameController.jump_player]
      repeat' split
      all_goals first | rfl | simp_all
    intro h
    rw [key, h]
    rfl
  · intro c x y hin
    unfold GameController.sync_position
    rw [if_neg (not_not_intro hin)]
  · intro c tt x y now htt hch hin
    simp only [GameController.place_trap]
    rw [if_neg (by rw [htt]; intro hk; exact hk.1 rfl)]
    rw [if_neg (by omega)]
    rw [if_neg (not_not_intro hin)]
  · intro c now h
    unfold GameController.activate_shield
    rw [if_neg (by omega)]
  · intro c qid ci ft rv pv pw hne hsome
    simp only [GameController.submit_decision, hne, Bool.false_eq_true, if_false]
    obtain ⟨q, hq⟩ := Option.isSome_iff_exists.mp hsome
    rw [hq]

/-- Witness for C7 (amended) on the fixtures: a move and a wall mutation
with zero snapshot writes, and a successful jump, sync, trap placement,
shield activation and decision submission each with one snapshot write. -/
theorem C7_witness :
    (GameController.move_player ctrlFix 1 0 0 rngZero).saves = 0 ∧
    (GameController.apply_wall_mutations ctrlFix
      [⟨0, 0, some Direction.east, "open"⟩]).saves = 0 ∧
    (GameController.jump_player ctrlFix4 "east" rngZero).saves = 1 ∧
    (GameController.sync_position ctrlFix 1 0).saves = 1 ∧
    (GameController.place_trap ctrlT "mine" 0 0 0).saves = 1 ∧
    (GameController.activate_shield ctrlFix 0).saves = 1 ∧
    (GameController.submit_decision ctrlQ "q1" (some 0) none review0 none none).saves = 1 := by
  have h := C7_snapshot_discipline
  refine ⟨h.1 ctrlFix 1 0 0 rngZero, h.2.1 ctrlFix _, h.2.2.1 ctrlFix4 "east" rngZero (by decide),
    h.2.2.2.1 ctrlFix 1 0 (by decide), h.2.2.2.2.1 ctrlT "mine" 0 0 0 (by decide) (by decide)
      (by decide), ?_, h.2.2.2.2.2.2 ctrlQ "q1" (some 0) none review0 none none (by decide)
      (by decide)⟩
  exact h.2.2.2.2.2.1 ctrlFix 0
    (by simp [ctrlFix, GameState.fresh, GameState.grant_shield_bonus, grant_shield_loop])

/-- The age-gated shield grant either leaves the charge count unchanged or
sets it to exactly 1. -/
lemma grant_shield_loop_fst (charges last_age age : Int) :
    (grant_shield_loop charges last_age age).1 = charges ∨
    (grant_shield_loop charges last_age age).1 = 1 := by
  induction charges, last_age, age using grant_shield_loop.induct with
  | case1 charges last_age age h ih =>
    rw [grant_shield_loop, if_pos h]
    rcases ih with h1 | h1
    · right
      rw [h1]
      omega
    · right
      exact h1
  | case2 charges last_age age h =>
    left
    rw [grant_shield_loop, if_neg h]

/-- `_sync_shield_state` always yields at least one charge. -/
lemma sync_shield_ge_one (s : GameState) (now : ℚ) :
    1 ≤ (s.sync_shield_state now).shield_charges := by
  have he : (s.sync_shield_state now).shield_charges =
      (grant_shield_loop (max 1 s.shield_charges) s.shield_last_age s.age).1 := rfl
  rw [he]
  rcases grant_shield_loop_fst (max 1 s.shield_charges) s.shield_last_age s.age with h | h <;>
    rw [h] <;> omega

/-- `_sync_shield_state` on a zero-charge state yields exactly one charge. -/
lemma sync_shield_of_zero (s : GameState) (now : ℚ) (h : s.shield_charges = 0) :
    (s.sync_shield_state now).shield_charges = 1 := by
  have he : (s.sync_shield_state now).shield_charges =
      (grant_shield_loop (max 1 s.shield_charges) s.shield_last_age s.age).1 := rfl
  rw [he, h]
  rcases grant_shield_loop_fst (max 1 0) s.shield_last_age s.age with h1 | h1 <;> rw [h1] <;>
    omega

/-- `_expire_dissolved_nodes` never touches the shield charge count. -/
lemma expire_dissolved_shield (s : GameState) (m : Maze) (now : ℚ) :
    (s.expire_dissolved m now).shield_charges = s.shield_charges := by
  unfold GameState.expire_dissolved
  split
  · rfl
  · rfl

/-- None of the non-shield regeneration passes touches the shield charge
count. -/
lemma replenish_ally_jump_state_shield (s : GameState) (now : ℚ) :
    (s.replenish_ally_jump_state now).shield_charges = s.shield_charges := rfl

lemma replenish_freeze_state_shield (s : GameState) (now : ℚ) :
    (s.replenish_freeze_state now).shield_charges = s.shield_charges := rfl

lemma replenish_expand_state_shield (s : GameState) (now : ℚ) :
    (s.replenish_expand_state now).shield_charges = s.shield_charges := rfl

lemma replenish_lift_state_shield (s : GameState) (now : ℚ) :
    (s.replenish_lift_state now).shield_charges = s.shield_charges := rfl

lemma replenish_dissolve_state_shield (s : GameState) (now : ℚ) :
    (s.replenish_dissolve_state now).shield_charges = s.shield_charges := rfl

lemma replenish_trap_state_shield (s : GameState) (now : ℚ) :
    (s.replenish_trap_state now).shield_charges = s.shield_charges := rfl

lemma expire_traps_shield (s : GameState) (now : ℚ) :
    (s.expire_traps now).shield_charges = s.shield_charges := rfl

/-- Claim C10: the shield-sync pass forces at least one charge, so every
state read through `get_state_payload` (and a freshly constructed
controller) reports at least one shield charge; in particular a charge
spent by `activate_shield` down to 0 reads back as exactly 1 on the next
payload. -/
theorem C10_shield_floor :
    (∀ (s : GameState) (now : ℚ), 1 ≤ (s.sync_shield_state now).shield_charges) ∧
    (∀ (c : GameController) (now : ℚ), 1 ≤ (c.get_state_payload_state now).shield_charges) ∧
    (∀ (settings : Settings) (st : GameState) (m : Maze) (rng : Rng) (now : ℚ),
      1 ≤ (GameController.construct settings st m rng now).state.shield_charges) ∧
    (∀ (c : GameController) (now now2 : ℚ),
      (c.activate_shield now).ctrl.state.shield_charges = 0 →
      ((c.activate_shield now).ctrl.get_state_payload_state now2).shield_charges = 1) := by
  refine ⟨fun s now => sync_shield_ge_one s now, fun c now => sync_shield_ge_one _ now,
    fun settings st m rng now => sync_shield_ge_one _ now, ?_⟩
  intro c now now2 h
  have hpre :
      (((((((((c.activate_shield now).ctrl.state.replenish_ally_jump_state
        now2).replenish_freeze_state now2).replenish_expand_state now2).replenish_lift_state
        now2).replenish_dissolve_state now2).expire_dissolved (c.activate_shield now).ctrl.maze
        now2).replenish_trap_state now2).expire_traps now2).shield_charges =
        (c.activate_shield now).ctrl.state.shield_charges := by
    rw [expire_traps_shield, replenish_trap_state_shield, expire_dissolved_shield,
      replenish_dissolve_state_shield, replenish_lift_state_shield,
      replenish_expand_state_shield, replenish_freeze_state_shield,
      replenish_ally_jump_state_shield]
  exact sync_shield_of_zero _ now2 (hpre.trans h)

/-- Witness for C10: the fresh state, and a shield activation that consumes
the last charge followed by a payload read reporting one charge. -/
theorem C10_witness :
    1 ≤ ((GameState.fresh 0).sync_shield_state 0).shield_charges ∧
    ((ctrlFix.activate_shield 0).ctrl.get_state_payload_state 0).shield_charges = 1 := by
  have h := C10_shield_floor
  exact ⟨h.1 (GameState.fresh 0) 0, h.2.2.2 ctrlFix 0 0
    (by simp [ctrlFix, GameState.fresh, GameController.activate_shield,
      GameState.grant_shield_bonus, grant_shield_loop])⟩

end MoralMaze
